import Mathlib

/-!
# go-oauth2webflow: OAuth2 authorization-code flow over a local callback listener

A shallow embedding of `oauth2flow.go` (package `oauth2flow`) and
`oauth2webflow.go` (package `oauth2webflow`).

* Go strings are byte sequences (`GoString`).
* The parts of the Go standard library the two files call and whose results the
  properties below depend on are written out: `net/url` query escaping,
  `url.ParseQuery`, `url.Values`, `URL.String`, `base64.StdEncoding` and the
  way `encoding/json` fills a struct from a JSON object.
* `url.Parse`, the JSON scanner, the network and the functions of the
  repository that live in other files (`randomString`, `openURLBrowser`) are
  parameters (`Lib`, `World`).
* A handler run is a function on the state shared by the flow and its handler
  (`Server`): the result channel, the listener, and the trace of observable
  events.  `log.Fatal` ends the process; a nil dereference panics the handler,
  and `net/http` recovers a handler panic and keeps serving.
* `http.Serve` starts one goroutine per connection; here the requests of one
  flow are handled one after the other, each while the listener is open.
* The library is the one of Go 1.17 and later on a 64-bit platform: a query
  pair that holds a `;` is malformed, and an `int` has 64 bits.
-/

set_option linter.dupNamespace false

namespace OAuth2Flow

/-! ## Bytes and strings -/

/-- One byte. -/
abbrev Byte := Fin 256

/-- A Go `string`: an immutable sequence of bytes. -/
abbrev GoString := List Byte

/-- The byte with value `n % 256`. -/
def byte (n : Nat) : Byte := ⟨n % 256, Nat.mod_lt _ (by decide)⟩

/-- The byte of an ASCII character. -/
def ch (c : Char) : Byte := byte c.toNat

/-- UTF-8 encoding of one character. -/
def utf8 (c : Char) : List Byte :=
  let n := c.toNat
  if n < 128 then [byte n]
  else if n < 2048 then [byte (192 + n / 64), byte (128 + n % 64)]
  else if n < 65536 then
    [byte (224 + n / 4096), byte (128 + n / 64 % 64), byte (128 + n % 64)]
  else
    [byte (240 + n / 262144), byte (128 + n / 4096 % 64), byte (128 + n / 64 % 64),
      byte (128 + n % 64)]

/-- The Go string written as the literal `s` (its UTF-8 bytes). -/
def str (s : String) : GoString := s.toList.flatMap utf8

/-- Result of `strings.Cut(s, sep)` for a one-byte separator: the text before the
first `sep`, the text after it, and whether `sep` occurs. -/
def cut (sep : Byte) : GoString → GoString × GoString × Bool
  | [] => ([], [], false)
  | c :: s =>
    if c = sep then ([], s, true)
    else ((c :: (cut sep s).1), (cut sep s).2.1, (cut sep s).2.2)

/-- The pieces of `s` between occurrences of `sep` (`strings.Split`). -/
def split (sep : Byte) : GoString → List GoString
  | [] => [[]]
  | c :: s =>
    if c = sep then [] :: split sep s
    else
      match split sep s with
      | [] => [[c]]
      | seg :: rest => (c :: seg) :: rest

/-- Bytewise lexicographic order of Go strings (`a <= b`). -/
def strLe : GoString → GoString → Bool
  | [], _ => true
  | _ :: _, [] => false
  | a :: s, b :: t => if a < b then true else if b < a then false else strLe s t

/-! ## net/url: query escaping -/

/-- Letters and digits. -/
def isAlnum (c : Byte) : Bool :=
  (97 ≤ c.val && c.val ≤ 122) || (65 ≤ c.val && c.val ≤ 90) || (48 ≤ c.val && c.val ≤ 57)

/-- Go: `shouldEscape(c, encodeQueryComponent)`: everything but the unreserved
characters of RFC 3986 §2.3 is escaped in a query component. -/
def shouldEscape (c : Byte) : Bool :=
  if isAlnum c then false
  else if c = ch '-' ∨ c = ch '_' ∨ c = ch '.' ∨ c = ch '~' then false
  else true

/-- Go: `upperhex[n]` with `upperhex = "0123456789ABCDEF"`. -/
def upperhex (n : Nat) : Byte := if n < 10 then byte (48 + n) else byte (55 + n)

/-- Go: `ishex`. -/
def ishex (c : Byte) : Bool :=
  (48 ≤ c.val && c.val ≤ 57) || (97 ≤ c.val && c.val ≤ 102) || (65 ≤ c.val && c.val ≤ 70)

/-- Go: `unhex`. -/
def unhex (c : Byte) : Nat :=
  if 48 ≤ c.val ∧ c.val ≤ 57 then c.val - 48
  else if 97 ≤ c.val ∧ c.val ≤ 102 then c.val - 97 + 10
  else if 65 ≤ c.val ∧ c.val ≤ 70 then c.val - 65 + 10
  else 0

/-- Go: `url.QueryEscape(s)`, that is `escape(s, encodeQueryComponent)`: a space
becomes `+`, every other byte that must be escaped becomes `%XX`. -/
def QueryEscape : GoString → GoString
  | [] => []
  | c :: s =>
    if shouldEscape c then
      if c = ch ' ' then ch '+' :: QueryEscape s
      else ch '%' :: upperhex (c.val / 16) :: upperhex (c.val % 16) :: QueryEscape s
    else c :: QueryEscape s

/-- Go: `url.QueryUnescape(s)`, that is `unescape(s, encodeQueryComponent)`: `none`
stands for the `EscapeError` of a `%` that two hex digits do not follow. -/
def QueryUnescape : GoString → Option GoString
  | [] => some []
  | c :: s =>
    if c = ch '%' then
      match s with
      | h1 :: h2 :: rest =>
        if ishex h1 && ishex h2 then
          (QueryUnescape rest).map (fun t => byte (unhex h1 * 16 + unhex h2) :: t)
        else none
      | _ => none
    else if c = ch '+' then (QueryUnescape s).map (fun t => ch ' ' :: t)
    else (QueryUnescape s).map (fun t => c :: t)

/-! ## net/url: Values -/

/-- Go: `url.Values`, a `map[string][]string`.  The map is an association list read
at the first entry of a key: `m[k] = vs` puts a new entry in front. -/
abbrev Values := List (GoString × List GoString)

/-- Go: `v[key]`, the values stored under `key` (none when the key is absent). -/
def Values.lookup (v : Values) (key : GoString) : List GoString :=
  match v with
  | [] => []
  | (k, vs) :: rest => if k = key then vs else Values.lookup rest key

/-- The keys of the map, each once. -/
def Values.keys (v : Values) : List GoString := (v.map Prod.fst).dedup

/-- Go: `Values.Get`: the first value of `key`, or the empty string. -/
def Values.Get (v : Values) (key : GoString) : GoString :=
  match Values.lookup v key with
  | [] => []
  | x :: _ => x

/-- Go: `Values.Set`: `v[key] = []string{value}`. -/
def Values.Set (v : Values) (key value : GoString) : Values := (key, [value]) :: v

/-- Go: `v[key] = append(v[key], value)` (the body of `Values.Add`). -/
def Values.Add (v : Values) (key value : GoString) : Values :=
  (key, Values.lookup v key ++ [value]) :: v

/-- One pass of the loop of Go's `parseQuery` over the pair `key` (the text between
two `&`): a pair with a `;`, an empty pair and a pair whose key or value does
not unescape are skipped (the error is recorded, and `URL.Query` drops it). -/
def parsePair (m : Values) (key : GoString) : Values :=
  if ch ';' ∈ key then m
  else if key = [] then m
  else
    match QueryUnescape (cut (ch '=') key).1 with
    | none => m
    | some k =>
      match QueryUnescape (cut (ch '=') key).2.1 with
      | none => m
      | some value => Values.Add m k value

/-- Go: `parseQuery(m, query)` without its error result: the pairs between `&` are
handled from left to right. -/
def parseQuery (m : Values) (query : GoString) : Values :=
  (split (ch '&') query).foldl parsePair m

/-- Go: `url.ParseQuery(query)` as `URL.Query` uses it (the error is dropped). -/
def ParseQuery (query : GoString) : Values := parseQuery [] query

/-- What `Values.Encode` writes for one value `x` of the key `k`. -/
def encodePiece (k x : GoString) : GoString := QueryEscape k ++ ch '=' :: QueryEscape x

/-- The buffer of `Values.Encode` after writing one more `key=value` piece: an `&`
goes first unless the buffer is empty. -/
def writePiece (buf piece : GoString) : GoString :=
  if buf = [] then piece else buf ++ ch '&' :: piece

/-- Go: `Values.Encode`: the keys are sorted, and each value of each key is written
as `QueryEscape(key)=QueryEscape(value)`, the pieces joined by `&`. -/
def Values.Encode (v : Values) : GoString :=
  let keys := (Values.keys v).insertionSort (fun a b => strLe a b = true)
  (keys.flatMap fun k => (Values.lookup v k).map fun x => encodePiece k x).foldl writePiece []

/-! ## encoding/base64 -/

/-- The alphabet of `base64.StdEncoding`: `A-Z`, `a-z`, `0-9`, `+`, `/`. -/
def b64 (n : Nat) : Byte :=
  if n < 26 then byte (65 + n)
  else if n < 52 then byte (97 + (n - 26))
  else if n < 62 then byte (48 + (n - 52))
  else if n = 62 then ch '+'
  else ch '/'

/-- Go: `base64.StdEncoding.EncodeToString`: three bytes give four characters, the
last group is padded with `=`. -/
def EncodeToString : List Byte → GoString
  | a :: b :: c :: rest =>
    b64 (a.val / 4) :: b64 (a.val % 4 * 16 + b.val / 16) :: b64 (b.val % 16 * 4 + c.val / 64)
      :: b64 (c.val % 64) :: EncodeToString rest
  | [a, b] =>
    [b64 (a.val / 4), b64 (a.val % 4 * 16 + b.val / 16), b64 (b.val % 16 * 4), ch '=']
  | [a] => [b64 (a.val / 4), b64 (a.val % 4 * 16), ch '=', ch '=']
  | [] => []

/-- The value of a character of the base64 alphabet, `none` for any other byte. -/
def b64Value (c : Byte) : Option Nat :=
  if 65 ≤ c.val ∧ c.val ≤ 90 then some (c.val - 65)
  else if 97 ≤ c.val ∧ c.val ≤ 122 then some (c.val - 97 + 26)
  else if 48 ≤ c.val ∧ c.val ≤ 57 then some (c.val - 48 + 52)
  else if c = ch '+' then some 62
  else if c = ch '/' then some 63
  else none

/-- Go: `base64.StdEncoding.DecodeString` on padded input without line breaks: four
characters give three bytes, the last group may end in `=` or `==`. -/
def DecodeString : GoString → Option (List Byte)
  | [] => some []
  | c0 :: c1 :: c2 :: c3 :: rest =>
    match b64Value c0, b64Value c1 with
    | some v0, some v1 =>
      if c2 = ch '=' ∧ c3 = ch '=' ∧ rest = [] then
        (if v1 % 16 = 0 then some [byte (v0 * 4 + v1 / 16)] else none)
      else
        match b64Value c2 with
        | none => none
        | some v2 =>
          if c3 = ch '=' ∧ rest = [] then
            (if v2 % 4 = 0 then
              some [byte (v0 * 4 + v1 / 16), byte (v1 % 16 * 16 + v2 / 4)]
            else none)
          else
            match b64Value c3 with
            | none => none
            | some v3 =>
              (DecodeString rest).map fun t =>
                byte (v0 * 4 + v1 / 16) :: byte (v1 % 16 * 16 + v2 / 4)
                  :: byte (v2 % 4 * 64 + v3) :: t
    | _, _ => none
  | _ => none

/-! ## net/url: URL -/

/-- Go: `url.URL`, by what `URL.String` writes: `head` is the text written ahead of
the query (scheme, opaque part or authority, escaped path) and
`EscapedFragment` the result of the method of that name. -/
structure URL where
  head : GoString
  ForceQuery : Bool
  RawQuery : GoString
  Fragment : GoString
  EscapedFragment : GoString
deriving DecidableEq

/-- Go: `URL.Query`: `ParseQuery(u.RawQuery)`, malformed pairs dropped. -/
def URL.Query (u : URL) : Values := ParseQuery u.RawQuery

/-- Go: `URL.String`: the head, then `?` and the raw query when there is one (or
`ForceQuery` is set), then `#` and the escaped fragment when there is one. -/
def URL.String (u : URL) : GoString :=
  u.head
    ++ (if u.ForceQuery ∨ u.RawQuery ≠ [] then ch '?' :: u.RawQuery else [])
    ++ (if u.Fragment ≠ [] then ch '#' :: u.EscapedFragment else [])

/-- The query component of a URL given as text: what stands after the first `?` of
the part before the first `#` (RFC 3986 §3; `url.Parse` cuts the same way). -/
def rawQueryOf (s : GoString) : GoString := (cut (ch '?') (cut (ch '#') s).1).2.1

/-! ## encoding/json -/

/-- A JSON value as the decoder sees it: strings are unquoted, a number keeps its
literal text. -/
inductive JSON where
  | null
  | bool (b : Bool)
  | number (lit : GoString)
  | string (s : GoString)
  | array (elems : List JSON)
  | object (members : List (GoString × JSON))

/-- The library functions taken as parameters: `Parse` is `url.Parse` (`none` for
an error), `readValue` is what the `encoding/json` decoder reads as the next
value of a stream (`none` for an empty stream or a syntax error). -/
structure Lib where
  Parse : GoString → Option URL
  readValue : GoString → Option JSON

/-- Value of a decimal digit string, `none` when a byte is not a digit. -/
def digitsValue : Nat → GoString → Option Nat
  | acc, [] => some acc
  | acc, c :: s =>
    if 48 ≤ c.val ∧ c.val ≤ 57 then digitsValue (acc * 10 + (c.val - 48)) s else none

/-- Go: `strconv.ParseInt(s, 10, 64)`: an optional sign and at least one digit, the
value within the 64-bit range. -/
def ParseInt (s : GoString) : Option Int :=
  let neg := s.head? = some (ch '-')
  let ds := if s.head? = some (ch '-') ∨ s.head? = some (ch '+') then s.tail else s
  if ds = [] then none
  else
    match digitsValue 0 ds with
    | none => none
    | some n =>
      let v : Int := if neg then - (n : Int) else (n : Int)
      if - (2 : Int) ^ 63 ≤ v ∧ v < (2 : Int) ^ 63 then some v else none

/-- Go: encoding/json `foldName`, as far as the result can equal the folded name of
an ASCII field: ASCII letters go to upper case, the Kelvin sign U+212A to `K`
and the long s U+017F to `S`; other bytes stay. -/
def foldName : GoString → GoString
  | [] => []
  | c :: s =>
    if c.val < 128 then
      (if 97 ≤ c.val ∧ c.val ≤ 122 then byte (c.val - 32) else c) :: foldName s
    else
      match s with
      | d :: e :: rest =>
        if c.val = 226 ∧ d.val = 132 ∧ e.val = 170 then ch 'K' :: foldName rest
        else if c.val = 197 ∧ d.val = 191 then ch 'S' :: foldName (e :: rest)
        else c :: foldName (d :: e :: rest)
      | [d] => if c.val = 197 ∧ d.val = 191 then [ch 'S'] else c :: foldName [d]
      | [] => [c]

end OAuth2Flow

/-! ## Package oauth2flow (`oauth2flow.go`) -/

namespace OAuth2Flow

/-- Go: `type OAuth2Config struct`. -/
structure OAuth2Config where
  AuthorizeURL : GoString
  TokenURL : GoString
  ClientID : GoString
  ClientSecret : GoString
  Scope : GoString
deriving DecidableEq

/-- Go: `type AccessToken struct` (`ExpiresIn` is an `int`, 64 bits wide). -/
structure AccessToken where
  AccessToken : GoString
  TokenType : GoString
  Scope : GoString
  ExpiresIn : Int
  RefreshToken : GoString
deriving DecidableEq

/-- Go: `var token AccessToken`: the zero value. -/
def zeroToken : AccessToken := ⟨[], [], [], 0, []⟩

/-- The fields of `AccessToken`, in the order of the struct. -/
inductive Field where
  | AccessToken | TokenType | Scope | ExpiresIn | RefreshToken
deriving DecidableEq

/-- The `json:"..."` tag of each field of `AccessToken`. -/
def Field.tag : Field → GoString
  | .AccessToken => str "access_token"
  | .TokenType => str "token_type"
  | .Scope => str "scope"
  | .ExpiresIn => str "expires_in"
  | .RefreshToken => str "refresh_token"

/-- All fields, in the order of the struct. -/
def Field.all : List Field :=
  [.AccessToken, .TokenType, .Scope, .ExpiresIn, .RefreshToken]

/-- The field a JSON object key selects (encoding/json): the field whose tag is the
key, else the first field whose tag equals the key up to case folding. -/
def findField (key : GoString) : Option Field :=
  match Field.all.find? (fun f => f.tag = key) with
  | some f => some f
  | none => Field.all.find? (fun f => foldName f.tag = foldName key)

/-- Storing one JSON value into one field of the token (encoding/json): `null`
leaves the field as it is, a string goes into a string field, a number
literal that `ParseInt` accepts goes into `ExpiresIn`; any other value is an
`UnmarshalTypeError` (the flag) and leaves the field as it is. -/
def setField (t : AccessToken) (f : Field) (v : JSON) : AccessToken × Bool :=
  match f, v with
  | _, .null => (t, false)
  | .AccessToken, .string s => ({ t with AccessToken := s }, false)
  | .TokenType, .string s => ({ t with TokenType := s }, false)
  | .Scope, .string s => ({ t with Scope := s }, false)
  | .RefreshToken, .string s => ({ t with RefreshToken := s }, false)
  | .ExpiresIn, .number lit =>
    match ParseInt lit with
    | some n => ({ t with ExpiresIn := n }, false)
    | none => (t, true)
  | _, _ => (t, true)

/-- Filling the token from the members of a JSON object, in their order: a key
that selects no field is skipped, and decoding goes on after a type error. -/
def unmarshalObject (t : AccessToken) : List (GoString × JSON) → AccessToken × Bool
  | [] => (t, false)
  | (k, v) :: rest =>
    match findField k with
    | none => unmarshalObject t rest
    | some f =>
      ((unmarshalObject (setField t f v).1 rest).1,
        (setField t f v).2 || (unmarshalObject (setField t f v).1 rest).2)

/-- Go: `json.NewDecoder(body).Decode(&token)`: the token after the call and whether
an error is returned.  Nothing is stored when no value can be read; an object
fills the struct; `null` stores nothing; any other value is a type error. -/
def Decode (lib : Lib) (body : GoString) (token : AccessToken) : AccessToken × Bool :=
  match lib.readValue body with
  | none => (token, true)
  | some (.object members) => unmarshalObject token members
  | some .null => (token, false)
  | some _ => (token, true)

/-- An inbound request as the handlers read it: `r.URL.Path` and `r.URL.RawQuery`. -/
structure Request where
  Path : GoString
  RawQuery : GoString
deriving DecidableEq

/-- Go: `r.URL.Query()`. -/
def Request.Query (r : Request) : Values := ParseQuery r.RawQuery

/-- An outbound request: method, URL as given to `http.NewRequest`, the headers in
the order of the `Header.Add` calls, and the body. -/
structure HTTPRequest where
  Method : GoString
  URL : GoString
  Header : List (GoString × GoString)
  Body : GoString
deriving DecidableEq

/-- Go: `req.Header.Add(key, value)`. -/
def HTTPRequest.AddHeader (req : HTTPRequest) (key value : GoString) : HTTPRequest :=
  { req with Header := req.Header ++ [(key, value)] }

/-- Go: `http.NewRequest(method, url, body)` for a valid method: `nil` (with an
error) exactly when `url.Parse(url)` fails. -/
def NewRequest (lib : Lib) (method url body : GoString) : Option HTTPRequest :=
  match lib.Parse url with
  | none => none
  | some _ => some { Method := method, URL := url, Header := [], Body := body }

/-- What the token endpoint answers: status code and body. -/
structure Response where
  StatusCode : Nat
  Body : GoString
deriving DecidableEq

/-- Go: `oauth2.Token` (package `golang.org/x/oauth2`). -/
structure Token where
  AccessToken : GoString
  TokenType : GoString
  RefreshToken : GoString
deriving DecidableEq

/-- Everything outside the two files that one run of a flow meets.
`randomString n` is the string `randomString(n)` returns in this run and
`openURLBrowser` the error of the function of that name (both are in files of
the repository not given here; `none` is a nil error); `listen` is the error
of `net.Listen("tcp", ":5000")`; `Do n req` is the result of the `n`-th
`client.Do` of the run, counted from 0 (`none`: a nil response, the transport
failed); `Exchange n code` is the result of the `n`-th `conf.Exchange`;
`AuthCodeURL` is `conf.AuthCodeURL`; `serveError` is the text of the error
`http.Serve` returns once the listener is closed; `requests` are the requests
that reach the listener, in order. -/
structure World where
  randomString : Nat → GoString
  openURLBrowser : GoString → Option GoString
  listen : Option GoString
  Do : Nat → HTTPRequest → Option Response
  Exchange : Nat → GoString → Except GoString Token
  AuthCodeURL : GoString → GoString
  serveError : GoString
  requests : List Request

/-- Why `log.Fatal` is called. -/
inductive Cause where
  /-- Go: `log.Fatal("callbackHandler: state invalid")` -/
  | stateInvalid
  /-- Go: `log.Fatal(err)` after `url.Parse(settings.AuthorizeURL)` -/
  | authorizeURL
  /-- Go: `log.Fatal(err)` after `net.Listen` -/
  | listen (err : GoString)
  /-- Go: `log.Fatal(err)` after `conf.Exchange` -/
  | exchange (err : GoString)
deriving DecidableEq

/-- The observable steps of a flow, `τ` being the type of the token. -/
inductive Event (τ : Type) where
  /-- Go: `openURLBrowser(url)` -/
  | openBrowser (url : GoString)
  /-- Go: `client.Do(req)`: a request to the token endpoint (oauth2flow) -/
  | tokenRequest (req : HTTPRequest)
  /-- Go: `conf.Exchange(ctx, code)`: the token exchange (oauth2webflow) -/
  | exchange (code : GoString)
  /-- Go: `fmt.Fprint(w, body)` -/
  | write (body : GoString)
  /-- Go: `c <- token` -/
  | send (token : τ)
  /-- Go: `l.Close()` -/
  | close
  /-- Go: `log.Fatal(...)`: the message is logged and the process exits -/
  | fatal (why : Cause)
  /-- a nil dereference in the handler; `net/http` recovers it -/
  | panic
deriving DecidableEq

/-- The state a flow shares with its handler: the events so far, the content of
the channel `c`, whether the listener `l` is open, whether the process is
still running, and how many calls to the token endpoint were made. -/
structure Server (τ : Type) where
  trace : List (Event τ)
  c : List τ
  l : Bool
  running : Bool
  calls : Nat

/-- The state when `http.Serve` starts: listener open, channel empty. -/
def Server.start {τ : Type} (trace : List (Event τ)) : Server τ :=
  { trace := trace, c := [], l := true, running := true, calls := 0 }

/-- One more event. -/
def Server.emit {τ : Type} (s : Server τ) (e : Event τ) : Server τ :=
  { s with trace := s.trace ++ [e] }

/-- Go: `log.Fatal(...)`: the process ends. -/
def Server.Fatal {τ : Type} (s : Server τ) (why : Cause) : Server τ :=
  { s with trace := s.trace ++ [.fatal why], running := false }

/-- A call to the token endpoint is made: the event is recorded and counted. -/
def Server.call {τ : Type} (s : Server τ) (e : Event τ) : Server τ :=
  { s with trace := s.trace ++ [e], calls := s.calls + 1 }

/-- A nil dereference: the handler stops here, the server goes on. -/
def Server.Panic {τ : Type} (s : Server τ) : Server τ :=
  { s with trace := s.trace ++ [.panic] }

/-- Go: `c <- token`. -/
def Server.Send {τ : Type} (s : Server τ) (token : τ) : Server τ :=
  { s with trace := s.trace ++ [.send token], c := s.c ++ [token] }

/-- Go: `l.Close()`. -/
def Server.Close {τ : Type} (s : Server τ) : Server τ :=
  { s with trace := s.trace ++ [.close], l := false }

/-- How a call ends: it returns a value, the process exits (`log.Fatal`), or the
call never returns. -/
inductive Outcome (α : Type) where
  | returned (a : α)
  | exited
  | blocked
deriving DecidableEq

/-- Go: `http.Serve(l, handler)`: the requests are handled in order, each while the
listener is open and the process runs. -/
def Serve {τ : Type} (handler : Server τ → Request → Server τ) :
    Server τ → List Request → Server τ
  | s, [] => s
  | s, r :: rs => if s.running ∧ s.l then Serve handler (handler s r) rs else s

/-- Go: `return <-c` after `http.Serve`: `Serve` comes back once the listener is
closed, and the receive yields the first value of the channel. -/
def receive {τ : Type} (s : Server τ) : Outcome τ :=
  if ¬ s.running then .exited
  else if s.l then .blocked
  else
    match s.c with
    | token :: _ => .returned token
    | [] => .blocked

/-- The page both handlers write. -/
def closePage : GoString := str "<script type=\"text/javascript\">window.close()</script>"

namespace oauth2flow

/-- Go: `createAuthorizationURL` (oauth2flow.go:108-123).  `none`: `url.Parse`
fails and `log.Fatal(err)` ends the process. -/
def createAuthorizationURL (lib : Lib) (settings : OAuth2Config)
    (responseType redirectURL state : GoString) : Option GoString :=
  match lib.Parse settings.AuthorizeURL with
  | none => none
  | some u =>
    let q := u.Query
    let q := Values.Set q (str "client_id") settings.ClientID
    let q := Values.Set q (str "response_type") responseType
    let q := Values.Set q (str "redirect_uri") redirectURL
    let q := Values.Set q (str "state") state
    let q := Values.Set q (str "scope") settings.Scope
    some (URL.String { u with RawQuery := Values.Encode q })

/-- Go: the form of oauth2flow.go:70-74. -/
def tokenForm (code redirectURI : GoString) : Values :=
  [(str "grant_type", [str "authorization_code"]),
   (str "code", [code]),
   (str "redirect_uri", [redirectURI])]

/-- Go: the handler returned by `callbackHandler` (oauth2flow.go:58-106), run on
one request `r` in state `s`. -/
def callbackHandler (lib : Lib) (w : World) (settings : OAuth2Config)
    (redirectURI secretState : GoString) (s : Server AccessToken) (r : Request) :
    Server AccessToken :=
  let code := Values.Get r.Query (str "code")
  let state := Values.Get r.Query (str "state")
  -- Check state is valid
  if state ≠ secretState then s.Fatal .stateInvalid
  else
    -- Create a form
    let form := tokenForm code redirectURI
    -- Make the POST request to the token url
    match NewRequest lib (str "POST") settings.TokenURL (Values.Encode form) with
    | none => s.Panic -- `req` is nil: `req.Header` dereferences it
    | some req =>
      let req := req.AddHeader (str "Content-Type") (str "application/x-www-form-urlencoded")
      -- Add the client id and secret in the Authorization header
      let clientIDSecret := settings.ClientID ++ str ":" ++ settings.ClientSecret
      let encodedClientIDSecret := EncodeToString clientIDSecret
      let req := req.AddHeader (str "Authorization") (str "Basic " ++ encodedClientIDSecret)
      -- `client.Do(req)`: the call is made, the world gives its result
      let called := s.call (.tokenRequest req)
      match w.Do s.calls req with
      | none => called.Panic -- `resp` is nil: `defer resp.Body.Close()` dereferences it
      | some resp =>
        -- Decode the AccessToken response (the error of `Decode` is dropped)
        let token := (Decode lib resp.Body zeroToken).1
        -- Close window using JavaScript
        let s := called.emit (.write closePage)
        -- Send back AccessToken through channel
        let s := s.Send token
        -- Stop HTTP server
        s.Close

/-- Go: `AuthCodeFlow` (oauth2flow.go:25-47): how the call ends, and the events of
the run. -/
def AuthCodeFlow (lib : Lib) (w : World) (settings : OAuth2Config) :
    Outcome AccessToken × List (Event AccessToken) :=
  let responseType := str "code"
  let redirectURI := str "http://localhost:5000"
  let secretState := w.randomString 10
  -- Open the authorize url in the system web browser
  match createAuthorizationURL lib settings responseType redirectURI secretState with
  | none => (.exited, [.fatal .authorizeURL])
  | some url =>
    -- Start the callback http server
    match w.listen with
    | some err => (.exited, [.openBrowser url, .fatal (.listen err)])
    | none =>
      let s := Serve (callbackHandler lib w settings redirectURI secretState)
        (Server.start [.openBrowser url]) w.requests
      -- Return the token from the channel
      (receive s, s.trace)

end oauth2flow

/-! ## Package oauth2webflow (`oauth2webflow.go`) -/

namespace oauth2webflow

/-- Go: the handler returned by `callbackHandler` (oauth2webflow.go:60-98), run on
one request `r` in state `s`. -/
def callbackHandler (w : World) (secretState : GoString) (s : Server Token) (r : Request) :
    Server Token :=
  -- Ignore other requests such as favicon
  if r.Path ≠ str "/" then s
  else
    -- Get code and state
    let code := Values.Get r.Query (str "code")
    let state := Values.Get r.Query (str "state")
    -- Close the browser window using JavaScript
    let s := s.emit (.write closePage)
    -- Check if state is valid
    if state ≠ secretState then s.Fatal .stateInvalid
    else
      -- Exchange the code for a token
      let called := s.call (.exchange code)
      match w.Exchange s.calls code with
      | .error err => called.Fatal (.exchange err) -- `log.Fatal(err)`
      | .ok token =>
        -- Send the Token through the channel
        let s := called.Send token
        -- Stop the HTTP server (`defer l.Close()` runs when the handler returns)
        s.Close

/-- The error text `BrowserAuthCodeFlow` ignores. -/
def closedError : GoString := str "accept tcp [::]:5000: use of closed network connection"

/-- Go: `BrowserAuthCodeFlow` (oauth2webflow.go:23-58): how the call ends (the
token and the error it returns), and the events of the run. -/
def BrowserAuthCodeFlow (w : World) :
    Outcome (Option Token × Option GoString) × List (Event Token) :=
  let secretState := w.randomString 10
  let url := w.AuthCodeURL secretState
  -- Open the authorize url in the system web browser
  match w.openURLBrowser url with
  | some err => (.returned (none, some err), [.openBrowser url])
  | none =>
    -- Create a listener which we can close
    match w.listen with
    | some err => (.returned (none, some err), [.openBrowser url])
    | none =>
      -- Start the callback http server
      let s := Serve (callbackHandler w secretState) (Server.start [.openBrowser url]) w.requests
      if ¬ s.running then (.exited, s.trace)
      else if s.l then (.blocked, s.trace)
      else if w.serveError ≠ closedError then (.returned (none, some w.serveError), s.trace)
      else
        -- Return the token from the channel
        match s.c with
        | token :: _ => (.returned (some token, none), s.trace)
        | [] => (.blocked, s.trace)

end oauth2webflow

/-! ## A library instance for the examples

The theorems below hold for every `Lib`.  The examples run the flows with the
instance `stdLib`: a `url.Parse` for URLs whose head and fragment need no
escaping, and a reader for JSON texts without `\u` escapes. -/

/-- Go: `stringContainsCTLByte`. -/
def containsCTLByte (s : GoString) : Bool := s.any fun c => c.val < 32 || c.val = 127

/-- A `url.Parse` for a URL whose head and fragment are already in the form
`URL.String` writes: the fragment is cut at the first `#`, a control byte in
the rest is an error, and the query is cut at the first `?`. -/
def parsePlain (rawURL : GoString) : Option URL :=
  let u := (cut (ch '#') rawURL).1
  let frag := (cut (ch '#') rawURL).2.1
  if containsCTLByte u then none
  else
    some
      { head := (cut (ch '?') u).1
        ForceQuery := (cut (ch '?') u).2.2 && (cut (ch '?') u).2.1 = []
        RawQuery := (cut (ch '?') u).2.1
        Fragment := frag
        EscapedFragment := frag }

/-- JSON white space. -/
def isSpace (c : Byte) : Bool := c = ch ' ' || c = byte 9 || c = byte 10 || c = byte 13

/-- The text without its leading white space. -/
def skipSpace : GoString → GoString
  | [] => []
  | c :: s => if isSpace c then skipSpace s else c :: s

/-- The byte a one-letter JSON escape stands for. -/
def escapeByte (e : Byte) : Option Byte :=
  if e = ch '"' ∨ e = ch '\\' ∨ e = ch '/' then some e
  else if e = ch 'b' then some (byte 8)
  else if e = ch 'f' then some (byte 12)
  else if e = ch 'n' then some (byte 10)
  else if e = ch 'r' then some (byte 13)
  else if e = ch 't' then some (byte 9)
  else none

/-- A JSON string after its opening quote: the unquoted content and the text
after the closing quote. -/
def readString : GoString → Option (GoString × GoString)
  | [] => none
  | c :: s =>
    if c = ch '"' then some ([], s)
    else if c = ch '\\' then
      match s with
      | [] => none
      | e :: rest =>
        match escapeByte e with
        | none => none
        | some b => (readString rest).map fun p => (b :: p.1, p.2)
    else if c.val < 32 then none
    else (readString s).map fun p => (c :: p.1, p.2)

/-- A decimal digit. -/
def isDigit (c : Byte) : Bool := 48 ≤ c.val && c.val ≤ 57

/-- The text after an optional fraction `.digits`, `none` when a `.` has no digit. -/
def afterFraction (s : GoString) : Option GoString :=
  match s with
  | c :: t =>
    if c = ch '.' then (if (t.span isDigit).1 = [] then none else some (t.span isDigit).2)
    else some s
  | [] => some s

/-- The text after an optional exponent, `none` when the exponent has no digit. -/
def afterExponent (s : GoString) : Option GoString :=
  match s with
  | c :: t =>
    if c = ch 'e' ∨ c = ch 'E' then
      let u := if t.head? = some (ch '+') ∨ t.head? = some (ch '-') then t.tail else t
      if (u.span isDigit).1 = [] then none else some (u.span isDigit).2
    else some s
  | [] => some s

/-- A JSON number at the start of the text: its literal and the text after it. -/
def readNumber (s : GoString) : Option (GoString × GoString) :=
  let t := if s.head? = some (ch '-') then s.tail else s
  let afterInt :=
    if t.head? = some (ch '0') then some t.tail
    else if (t.span isDigit).1 = [] then none
    else some (t.span isDigit).2
  match afterInt with
  | none => none
  | some t0 =>
    match afterFraction t0 with
    | none => none
    | some t1 =>
      match afterExponent t1 with
      | none => none
      | some rest => some (s.take (s.length - rest.length), rest)

/-- What the reader is reading: a value, the rest of an array after `[` or after
an element, the rest of an object after `{` or after a member. -/
inductive Reading where
  | value
  | elems (first : Bool) (acc : List JSON)
  | members (first : Bool) (acc : List (GoString × JSON))

/-- A recursive-descent JSON reader; `fuel` bounds the number of steps. -/
def readJSON : Nat → Reading → GoString → Option (JSON × GoString)
  | 0, _, _ => none
  | fuel + 1, .value, s =>
    match skipSpace s with
    | [] => none
    | c :: t =>
      if c = ch '"' then (readString t).map fun p => (.string p.1, p.2)
      else if c = ch '[' then readJSON fuel (.elems true []) t
      else if c = byte 123 then readJSON fuel (.members true []) t
      else if (c :: t).take 4 = str "null" then some (.null, (c :: t).drop 4)
      else if (c :: t).take 4 = str "true" then some (.bool true, (c :: t).drop 4)
      else if (c :: t).take 5 = str "false" then some (.bool false, (c :: t).drop 5)
      else (readNumber (c :: t)).map fun p => (.number p.1, p.2)
  | fuel + 1, .elems first acc, s =>
    match skipSpace s with
    | [] => none
    | c :: t =>
      if c = ch ']' then some (.array acc, t)
      else
        let s1 := if first then some (c :: t) else if c = ch ',' then some t else none
        match s1 with
        | none => none
        | some s2 =>
          match readJSON fuel .value s2 with
          | none => none
          | some (v, rest) => readJSON fuel (.elems false (acc ++ [v])) rest
  | fuel + 1, .members first acc, s =>
    match skipSpace s with
    | [] => none
    | c :: t =>
      if c = byte 125 then some (.object acc, t)
      else
        let s1 := if first then some (c :: t) else if c = ch ',' then some t else none
        match s1 with
        | none => none
        | some s2 =>
          match skipSpace s2 with
          | q :: t2 =>
            if q = ch '"' then
              match readString t2 with
              | none => none
              | some (k, t3) =>
                match skipSpace t3 with
                | colon :: t4 =>
                  if colon = ch ':' then
                    match readJSON fuel .value t4 with
                    | none => none
                    | some (v, rest) => readJSON fuel (.members false (acc ++ [(k, v)])) rest
                  else none
                | [] => none
            else none
          | [] => none

/-- The first JSON value of a text, as `Decoder.Decode` reads it from a stream. -/
def readValue (body : GoString) : Option JSON :=
  (readJSON (2 * body.length + 2) .value body).map Prod.fst

/-- The library instance of the examples. -/
def stdLib : Lib := { Parse := parsePlain, readValue := readValue }

/-! ## Reading traces, and the values of the examples -/

/-- The event is a call to the token endpoint. -/
def Event.isTokenCall {τ : Type} : Event τ → Bool
  | .tokenRequest _ => true
  | .exchange _ => true
  | _ => false

/-- The event is a send on the result channel. -/
def Event.isSend {τ : Type} : Event τ → Bool
  | .send _ => true
  | _ => false

/-- The token request as the specification words it (§4.4, §6): a POST to the token
URL, the form fields `grant_type=authorization_code`, `code` and
`redirect_uri` as body, the header `Content-Type:
application/x-www-form-urlencoded`, and HTTP Basic authentication with the
base64 of `clientID:clientSecret`. -/
def specTokenRequest (settings : OAuth2Config) (code redirectURI : GoString) : HTTPRequest :=
  { Method := str "POST"
    URL := settings.TokenURL
    Header :=
      [(str "Content-Type", str "application/x-www-form-urlencoded"),
       (str "Authorization",
        str "Basic " ++ EncodeToString (settings.ClientID ++ str ":" ++ settings.ClientSecret))]
    Body :=
      Values.Encode
        [(str "grant_type", [str "authorization_code"]),
         (str "code", [code]),
         (str "redirect_uri", [redirectURI])] }

/-- The pair of key and value that `URL.Query` accepts from one piece of a query
(the text between two `&`), in the words of C8 as amended: no pair from an
empty piece, from a piece that holds a `;`, and from a piece whose key or
value has a bad percent escape; else the unescaped text before the first `=`
and the unescaped text after it. -/
def acceptedPair (piece : GoString) : Option (GoString × GoString) :=
  if ch ';' ∈ piece ∨ piece = [] then none
  else
    match QueryUnescape (cut (ch '=') piece).1, QueryUnescape (cut (ch '=') piece).2.1 with
    | some k, some v => some (k, v)
    | _, _ => none

/-- The query parameters of a query as they are written: for each non-empty piece
between two `&`, the text before the first `=` and the text after it. -/
def writtenPairs (query : GoString) : List (GoString × GoString) :=
  ((split (ch '&') query).filter fun piece => piece ≠ []).map
    fun piece => ((cut (ch '=') piece).1, (cut (ch '=') piece).2.1)

/-- The five query parameters `createAuthorizationURL` sets. -/
def managedKeys : List GoString :=
  [str "client_id", str "response_type", str "redirect_uri", str "state", str "scope"]

/-- A provider configuration whose authorize URL already carries a query. -/
def exSettings : OAuth2Config :=
  { AuthorizeURL := str "https://example.com/auth?foo=bar&state=old&foo=baz"
    TokenURL := str "https://example.com/token"
    ClientID := str "id"
    ClientSecret := str "secret"
    Scope := str "read" }

/-- The token response of the scenario of the specification. -/
def exBody : GoString :=
  str ("\x7b\"access_token\":\"xyz\",\"token_type\":\"Bearer\",\"scope\":\"read\"," ++
    "\"expires_in\":3600,\"refresh_token\":\"r1\"\x7d")

/-- The members of the JSON object `exBody`. -/
def exMembers : List (GoString × JSON) :=
  [(str "access_token", .string (str "xyz")),
   (str "token_type", .string (str "Bearer")),
   (str "scope", .string (str "read")),
   (str "expires_in", .number (str "3600")),
   (str "refresh_token", .string (str "r1"))]

/-- What `parsePlain` makes of the authorize URL of `exSettings`. -/
def exAuthorizeURL : URL :=
  { head := str "https://example.com/auth"
    ForceQuery := false
    RawQuery := str "foo=bar&state=old&foo=baz"
    Fragment := []
    EscapedFragment := [] }

/-- As `exSettings`, with an authorize URL whose query holds a pair with a bad
percent escape (`bad=%zz`), a pair with a `;` (`a;b=1`), an empty piece and a
key without `=`. -/
def exDroppingSettings : OAuth2Config :=
  { exSettings with
    AuthorizeURL := str "https://example.com/auth?x=1&y=2&x=3&bad=%zz&a;b=1&&k" }

/-- What `parsePlain` makes of the authorize URL of `exDroppingSettings`. -/
def exDroppingURL : URL :=
  { head := str "https://example.com/auth"
    ForceQuery := false
    RawQuery := str "x=1&y=2&x=3&bad=%zz&a;b=1&&k"
    Fragment := []
    EscapedFragment := [] }

/-- The URL `createAuthorizationURL` returns for `exDroppingSettings`. -/
def exDroppedURL : GoString :=
  str ("https://example.com/auth?client_id=id&k=" ++
    "&redirect_uri=http%3A%2F%2Flocalhost%3A5000&response_type=code&scope=read" ++
    "&state=abcdefghij&x=1&x=3&y=2")

/-- What `parsePlain` makes of the token URL of `exSettings`. -/
def exTokenURL : URL :=
  { head := str "https://example.com/token"
    ForceQuery := false
    RawQuery := []
    Fragment := []
    EscapedFragment := [] }

/-- The redirect `GET /?code=ABC123&state=abcdefghij`. -/
def exCallback : Request := { Path := str "/", RawQuery := str "code=ABC123&state=abcdefghij" }

/-- The redirect with a wrong state. -/
def exWrongState : Request := { Path := str "/", RawQuery := str "code=ABC123&state=wrong" }

/-- A request for the icon of the page. -/
def exFavicon : Request := { Path := str "/favicon.ico", RawQuery := [] }

/-- A run in which `randomString(10)` returns `abcdefghij`, the listener binds, the
browser sends the redirect once, and the token endpoint answers 200 and
`exBody`. -/
def exWorld : World :=
  { randomString := fun _ => str "abcdefghij"
    openURLBrowser := fun _ => none
    listen := none
    Do := fun _ _ => some { StatusCode := 200, Body := exBody }
    Exchange := fun _ _ => .ok ⟨str "xyz", str "Bearer", str "r1"⟩
    AuthCodeURL := fun state => str "https://example.com/auth?state=" ++ state
    serveError := oauth2webflow.closedError
    requests := [exCallback] }

/-- The redirect parameters on a path that is not the redirect path. -/
def exOtherPath : Request := { Path := str "/other", RawQuery := str "code=ABC123&state=abcdefghij" }

/-- As `exWorld`, but the browser sends the redirect twice and the first call to
the token endpoint fails in the transport (`client.Do` returns a nil response). -/
def exFlakyWorld : World :=
  { exWorld with
    Do := fun n _ => if n = 0 then none else some { StatusCode := 200, Body := exBody }
    requests := [exCallback, exCallback] }

/-- As `exWorld`, but the token endpoint answers HTTP 500 with a body that is not
JSON, and `conf.Exchange` returns an error. -/
def exFailingWorld : World :=
  { exWorld with
    Do := fun _ _ => some { StatusCode := 500, Body := str "Internal Server Error" }
    Exchange := fun _ _ => .error (str "oauth2: cannot fetch token: 500 Internal Server Error") }

/-- As `exWorld`, but the redirect the browser sends carries a wrong state. -/
def exWrongWorld : World := { exWorld with requests := [exWrongState] }

/-- The URL `AuthCodeFlow` hands to the browser for `exSettings` in `exWorld`. -/
def exAuthorizationURL : GoString :=
  str ("https://example.com/auth?client_id=id&foo=bar&foo=baz" ++
    "&redirect_uri=http%3A%2F%2Flocalhost%3A5000&response_type=code&scope=read" ++
    "&state=abcdefghij")

/-! ## Facts about the library functions -/

set_option maxRecDepth 100000 in
theorem unreserved_facts : ∀ c : Byte, shouldEscape c = false →
    c ≠ ch '%' ∧ c ≠ ch '+' ∧ c ≠ ch '&' ∧ c ≠ ch '=' ∧ c ≠ ch ';' ∧ c ≠ ch '#' := by
  decide

theorem upperhex_facts : ∀ n : Fin 16,
    ishex (upperhex n.val) = true ∧ unhex (upperhex n.val) = n.val ∧
      upperhex n.val ≠ ch '&' ∧ upperhex n.val ≠ ch '=' ∧ upperhex n.val ≠ ch ';' ∧
      upperhex n.val ≠ ch '#' := by
  decide

theorem byte_val (c : Byte) : byte c.val = c := by
  apply Fin.ext
  simp [byte, Nat.mod_eq_of_lt c.isLt]

theorem hi_lt (c : Byte) : c.val / 16 < 16 := by
  have := c.isLt
  omega

theorem lo_lt (c : Byte) : c.val % 16 < 16 := Nat.mod_lt _ (by decide)

/-- Unescaping undoes escaping. -/
theorem QueryUnescape_QueryEscape (s : GoString) : QueryUnescape (QueryEscape s) = some s := by
  induction s with
  | nil => rfl
  | cons c s ih =>
    unfold QueryEscape
    by_cases hesc : shouldEscape c = true
    · by_cases hsp : c = ch ' '
      · rw [if_pos hesc, if_pos hsp]
        unfold QueryUnescape
        rw [if_neg (by decide), if_pos rfl, ih, hsp]
        rfl
      · rw [if_pos hesc, if_neg hsp]
        unfold QueryUnescape
        have h1 := upperhex_facts ⟨c.val / 16, hi_lt c⟩
        have h2 := upperhex_facts ⟨c.val % 16, lo_lt c⟩
        simp only at h1 h2
        rw [if_pos rfl]
        simp only [h1.1, h2.1, Bool.and_self, if_true, ih, Option.map_some', h1.2.1, h2.2.1,
          Nat.div_add_mod', byte_val]
    · have hne := unreserved_facts c (by simpa using hesc)
      rw [if_neg hesc]
      unfold QueryUnescape
      rw [if_neg hne.1, if_neg hne.2.1, ih]
      rfl

/-- No byte of an escaped string is `&`, `=`, `;` or `#`. -/
theorem QueryEscape_clean (s : GoString) :
    ∀ b ∈ QueryEscape s, b ≠ ch '&' ∧ b ≠ ch '=' ∧ b ≠ ch ';' ∧ b ≠ ch '#' := by
  induction s with
  | nil => intro b hb; simp [QueryEscape] at hb
  | cons c s ih =>
    intro b hb
    unfold QueryEscape at hb
    by_cases hesc : shouldEscape c = true
    · by_cases hsp : c = ch ' '
      · rw [if_pos hesc, if_pos hsp] at hb
        rcases List.mem_cons.mp hb with h | h
        · subst h; decide
        · exact ih b h
      · rw [if_pos hesc, if_neg hsp] at hb
        have h1 := upperhex_facts ⟨c.val / 16, hi_lt c⟩
        have h2 := upperhex_facts ⟨c.val % 16, lo_lt c⟩
        simp only at h1 h2
        rcases List.mem_cons.mp hb with h | h
        · subst h; decide
        rcases List.mem_cons.mp h with h | h
        · subst h; exact h1.2.2
        rcases List.mem_cons.mp h with h | h
        · subst h; exact h2.2.2
        · exact ih b h
    · have hne := unreserved_facts c (by simpa using hesc)
      rw [if_neg hesc] at hb
      rcases List.mem_cons.mp hb with h | h
      · subst h; exact hne.2.2
      · exact ih b h

/-- Cutting at a separator that first occurs after `a`. -/
theorem cut_append (sep : Byte) (a b : GoString) (h : sep ∉ a) :
    cut sep (a ++ sep :: b) = (a, b, true) := by
  induction a with
  | nil => simp [cut]
  | cons c a ih =>
    have hc : c ≠ sep := fun e => h (by simp [e])
    have ha : sep ∉ a := fun e => h (by simp [e])
    simp [cut, hc, ih ha]

/-- Cutting a text without the separator. -/
theorem cut_none (sep : Byte) (a : GoString) (h : sep ∉ a) : cut sep a = (a, [], false) := by
  induction a with
  | nil => simp [cut]
  | cons c a ih =>
    have hc : c ≠ sep := fun e => h (by simp [e])
    have ha : sep ∉ a := fun e => h (by simp [e])
    simp [cut, hc, ih ha]

/-- Splitting a text without the separator. -/
theorem split_none (sep : Byte) (a : GoString) (h : sep ∉ a) : split sep a = [a] := by
  induction a with
  | nil => simp [split]
  | cons c a ih =>
    have hc : c ≠ sep := fun e => h (by simp [e])
    have ha : sep ∉ a := fun e => h (by simp [e])
    simp [split, hc, ih ha]

/-- Splitting at a separator that first occurs after `a`. -/
theorem split_append (sep : Byte) (a b : GoString) (h : sep ∉ a) :
    split sep (a ++ sep :: b) = a :: split sep b := by
  induction a with
  | nil => simp [split]
  | cons c a ih =>
    have hc : c ≠ sep := fun e => h (by simp [e])
    have ha : sep ∉ a := fun e => h (by simp [e])
    simp [split, hc, ih ha]

theorem encodePiece_clean (k x : GoString) :
    ∀ b ∈ encodePiece k x, b ≠ ch '&' ∧ b ≠ ch ';' ∧ b ≠ ch '#' := by
  intro b hb
  unfold encodePiece at hb
  rcases List.mem_append.mp hb with h | h
  · have := QueryEscape_clean k b h
    exact ⟨this.1, this.2.2.1, this.2.2.2⟩
  rcases List.mem_cons.mp h with h | h
  · subst h; decide
  · have := QueryEscape_clean x b h
    exact ⟨this.1, this.2.2.1, this.2.2.2⟩

theorem encodePiece_ne_nil (k x : GoString) : encodePiece k x ≠ [] := by
  simp [encodePiece]

/-- Parsing one written piece adds its value to its key. -/
theorem parsePair_encodePiece (m : Values) (k x : GoString) :
    parsePair m (encodePiece k x) = Values.Add m k x := by
  have hsemi : ch ';' ∉ encodePiece k x := fun h => (encodePiece_clean k x _ h).2.1 rfl
  have heq : ch '=' ∉ QueryEscape k := fun h => (QueryEscape_clean k _ h).2.1 rfl
  unfold parsePair
  rw [if_neg hsemi, if_neg (encodePiece_ne_nil k x)]
  simp only [encodePiece, cut_append _ _ _ heq, QueryUnescape_QueryEscape]

theorem foldl_writePiece_of_ne_nil (pieces : List GoString) (buf : GoString) (h : buf ≠ []) :
    pieces.foldl writePiece buf = buf ++ pieces.flatMap (fun p => ch '&' :: p) := by
  induction pieces generalizing buf with
  | nil => simp
  | cons p ps ih =>
    have h2 : buf ++ ch '&' :: p ≠ [] := by simp
    simp [List.foldl_cons, writePiece, h, ih _ h2]

theorem foldl_writePiece_cons (p : GoString) (ps : List GoString) (h : p ≠ []) :
    (p :: ps).foldl writePiece [] = p ++ ps.flatMap (fun q => ch '&' :: q) := by
  simp [List.foldl_cons, writePiece, foldl_writePiece_of_ne_nil ps p h]

theorem split_joined (p : GoString) (ps : List GoString)
    (h : ∀ q ∈ p :: ps, ch '&' ∉ q) :
    split (ch '&') (p ++ ps.flatMap (fun q => ch '&' :: q)) = p :: ps := by
  induction ps generalizing p with
  | nil => simpa using split_none _ p (h p (by simp))
  | cons q r ih =>
    have hp : ch '&' ∉ p := h p (by simp)
    have hr : ∀ t ∈ q :: r, ch '&' ∉ t := fun t ht => h t (List.mem_cons_of_mem _ ht)
    simp only [List.flatMap_cons, List.cons_append]
    rw [split_append _ _ _ hp, ih q hr]

/-- Parsing what `Encode` writes for a list of key-value pairs adds the pairs in
order. -/
theorem parseQuery_encoded (m : Values) (kvs : List (GoString × GoString)) :
    parseQuery m ((kvs.map fun kv => encodePiece kv.1 kv.2).foldl writePiece [])
      = kvs.foldl (fun m kv => Values.Add m kv.1 kv.2) m := by
  cases kvs with
  | nil => simp [parseQuery, split, parsePair]
  | cons kv kvs =>
    rw [List.map_cons, foldl_writePiece_cons _ _ (encodePiece_ne_nil _ _)]
    have hall : ∀ q ∈ encodePiece kv.1 kv.2 :: kvs.map (fun kv => encodePiece kv.1 kv.2),
        ch '&' ∉ q := by
      intro q hq hmem
      rcases List.mem_cons.mp hq with h | h
      · subst h; exact (encodePiece_clean _ _ _ hmem).1 rfl
      · obtain ⟨kv2, _, rfl⟩ := List.mem_map.mp h
        exact (encodePiece_clean _ _ _ hmem).1 rfl
    unfold parseQuery
    rw [split_joined _ _ hall, ← List.map_cons (fun kv => encodePiece kv.1 kv.2) kv kvs,
      List.foldl_map]
    simp only [parsePair_encodePiece]

/-- Go: `parseQuery` adds the pair of a piece when `acceptedPair` gives one, and skips
the piece otherwise. -/
theorem parsePair_acceptedPair (m : Values) (piece : GoString) :
    parsePair m piece
      = match acceptedPair piece with
        | none => m
        | some kv => Values.Add m kv.1 kv.2 := by
  unfold parsePair acceptedPair
  by_cases h1 : ch ';' ∈ piece
  · simp [h1]
  · by_cases h2 : piece = []
    · simp [h2]
    · rw [if_neg h1, if_neg h2, if_neg (by simp [h1, h2])]
      cases QueryUnescape (cut (ch '=') piece).1 with
      | none => rfl
      | some k =>
        cases QueryUnescape (cut (ch '=') piece).2.1 with
        | none => rfl
        | some v => rfl

/-- Parsing any query adds the accepted pairs of its pieces, in order, and nothing
else. -/
theorem parseQuery_accepted (m : Values) (query : GoString) :
    parseQuery m query
      = ((split (ch '&') query).filterMap acceptedPair).foldl
          (fun m kv => Values.Add m kv.1 kv.2) m := by
  unfold parseQuery
  generalize split (ch '&') query = pieces
  induction pieces generalizing m with
  | nil => rfl
  | cons piece pieces ih =>
    rw [List.foldl_cons, ih, parsePair_acceptedPair, List.filterMap_cons]
    cases acceptedPair piece with
    | none => rfl
    | some kv => rfl

theorem lookup_Add (m : Values) (k x key : GoString) :
    Values.lookup (Values.Add m k x) key
      = if k = key then Values.lookup m k ++ [x] else Values.lookup m key := by
  simp [Values.Add, Values.lookup]

theorem lookup_Set (m : Values) (k x key : GoString) :
    Values.lookup (Values.Set m k x) key = if k = key then [x] else Values.lookup m key := by
  simp [Values.Set, Values.lookup]

theorem lookup_foldl_Add (kvs : List (GoString × GoString)) (m : Values) (key : GoString) :
    Values.lookup (kvs.foldl (fun m kv => Values.Add m kv.1 kv.2) m) key
      = Values.lookup m key ++ (kvs.filter fun kv => kv.1 = key).map Prod.snd := by
  induction kvs generalizing m with
  | nil => simp
  | cons kv kvs ih =>
    rw [List.foldl_cons, ih, lookup_Add]
    by_cases h : kv.1 = key
    · simp [h, List.filter_cons]
    · simp [h, List.filter_cons]

theorem lookup_eq_nil (v : Values) (key : GoString) (h : key ∉ v.map Prod.fst) :
    Values.lookup v key = [] := by
  induction v with
  | nil => rfl
  | cons e v ih =>
    obtain ⟨k, vs⟩ := e
    have hk : k ≠ key := fun e => h (by simp [e])
    have hv : key ∉ v.map Prod.fst := fun e => h (by simp [e])
    simp [Values.lookup, hk, ih hv]

theorem filter_pairs (f : GoString → List GoString) (ks : List GoString) (key : GoString)
    (hnd : ks.Nodup) :
    ((ks.flatMap fun k => (f k).map fun x => (k, x)).filter fun kv => kv.1 = key).map Prod.snd
      = if key ∈ ks then f key else [] := by
  induction ks with
  | nil => simp
  | cons k ks ih =>
    have hk : k ∉ ks := (List.nodup_cons.mp hnd).1
    rw [List.flatMap_cons, List.filter_append, List.map_append, ih (List.nodup_cons.mp hnd).2]
    by_cases h : k = key
    · subst h
      simp [hk, List.filter_map, Function.comp_def]
    · have h2 : ¬ key = k := fun e => h e.symm
      simp [h, h2, List.filter_map, Function.comp_def]

/-- Reading back what `Encode` wrote gives every key its values. -/
theorem lookup_ParseQuery_Encode (v : Values) (key : GoString) :
    Values.lookup (ParseQuery (Values.Encode v)) key = Values.lookup v key := by
  have hperm := List.perm_insertionSort (fun a b => strLe a b = true) (Values.keys v)
  have hnd : ((Values.keys v).insertionSort (fun a b => strLe a b = true)).Nodup :=
    hperm.nodup_iff.mpr (List.nodup_dedup _)
  have hpieces :
      (((Values.keys v).insertionSort (fun a b => strLe a b = true)).flatMap fun k =>
        (Values.lookup v k).map fun x => encodePiece k x)
      = ((((Values.keys v).insertionSort (fun a b => strLe a b = true)).flatMap fun k =>
        (Values.lookup v k).map fun x => (k, x)).map fun kv => encodePiece kv.1 kv.2) := by
    simp [List.map_flatMap, Function.comp_def]
  unfold ParseQuery Values.Encode
  simp only []
  rw [hpieces, parseQuery_encoded, lookup_foldl_Add, filter_pairs _ _ _ hnd]
  by_cases hmem : key ∈ (Values.keys v).insertionSort (fun a b => strLe a b = true)
  · simp [hmem, Values.lookup]
  · have : key ∉ v.map Prod.fst := by
      intro h
      exact hmem (hperm.mem_iff.mpr (by simpa [Values.keys] using h))
    simp [hmem, Values.lookup, lookup_eq_nil v key this]

theorem mem_foldl_writePiece (pieces : List GoString) (buf : GoString) (b : Byte)
    (h : b ∈ pieces.foldl writePiece buf) :
    b ∈ buf ∨ b = ch '&' ∨ ∃ p ∈ pieces, b ∈ p := by
  induction pieces generalizing buf with
  | nil => exact Or.inl (by simpa using h)
  | cons p ps ih =>
    rw [List.foldl_cons] at h
    rcases ih _ h with h1 | h1 | ⟨q, hq, hb⟩
    · unfold writePiece at h1
      split_ifs at h1
      · exact Or.inr (Or.inr ⟨p, by simp, h1⟩)
      · rcases List.mem_append.mp h1 with h2 | h2
        · exact Or.inl h2
        rcases List.mem_cons.mp h2 with h3 | h3
        · exact Or.inr (Or.inl h3)
        · exact Or.inr (Or.inr ⟨p, by simp, h3⟩)
    · exact Or.inr (Or.inl h1)
    · exact Or.inr (Or.inr ⟨q, by simp [hq], hb⟩)

/-- No `#` is written by `Encode`. -/
theorem Encode_no_hash (v : Values) : ch '#' ∉ Values.Encode v := by
  intro h
  unfold Values.Encode at h
  rcases mem_foldl_writePiece _ _ _ h with h1 | h1 | ⟨p, hp, hb⟩
  · simp at h1
  · exact absurd h1 (by decide)
  · obtain ⟨k, _, hk⟩ := List.mem_flatMap.mp hp
    obtain ⟨x, _, rfl⟩ := List.mem_map.mp hk
    exact (encodePiece_clean _ _ _ hb).2.2 rfl

/-- The query of the text `URL.String` writes is the raw query of the URL, when the
head holds no `?` and no `#` and the raw query no `#`. -/
theorem rawQueryOf_String (u : URL) (hq : ch '?' ∉ u.head) (hh : ch '#' ∉ u.head)
    (hr : ch '#' ∉ u.RawQuery) : rawQueryOf (URL.String u) = u.RawQuery := by
  unfold rawQueryOf URL.String
  by_cases hfq : u.ForceQuery ∨ u.RawQuery ≠ []
  · have hpre : ch '#' ∉ u.head ++ ch '?' :: u.RawQuery := by
      intro h
      rcases List.mem_append.mp h with h | h
      · exact hh h
      rcases List.mem_cons.mp h with h | h
      · exact absurd h (by decide)
      · exact hr h
    rw [if_pos hfq]
    by_cases hf : u.Fragment ≠ []
    · rw [if_pos hf, cut_append _ _ _ hpre]
      simp only [cut_append _ _ _ hq]
    · rw [if_neg hf, List.append_nil, cut_none _ _ hpre]
      simp only [cut_append _ _ _ hq]
  · have hnil : u.RawQuery = [] := by
      by_contra h
      exact hfq (Or.inr h)
    rw [if_neg hfq, List.append_nil, hnil]
    by_cases hf : u.Fragment ≠ []
    · rw [if_pos hf, cut_append _ _ _ hh]
      simp only [cut_none _ _ hq]
    · rw [if_neg hf, List.append_nil, cut_none _ _ hh]
      simp only [cut_none _ _ hq]

theorem b64Value_b64 : ∀ n : Fin 64, b64Value (b64 n.val) = some n.val ∧ b64 n.val ≠ ch '=' := by
  decide

theorem byte_of_lt (n : Nat) (h : n < 256) : (byte n).val = n := by
  simp [byte, Nat.mod_eq_of_lt h]

/-- Decoding undoes `EncodeToString`: the encoding loses nothing. -/
theorem DecodeString_EncodeToString (s : List Byte) :
    DecodeString (EncodeToString s) = some s := by
  induction s using EncodeToString.induct with
  | case1 a b c rest ih =>
    have ha := a.isLt
    have hb := b.isLt
    have hc := c.isLt
    have h0 := b64Value_b64 ⟨a.val / 4, by omega⟩
    have h1 := b64Value_b64 ⟨a.val % 4 * 16 + b.val / 16, by omega⟩
    have h2 := b64Value_b64 ⟨b.val % 16 * 4 + c.val / 64, by omega⟩
    have h3 := b64Value_b64 ⟨c.val % 64, by omega⟩
    simp only at h0 h1 h2 h3
    have e1 : byte (a.val / 4 * 4 + (a.val % 4 * 16 + b.val / 16) / 16) = a := by
      apply Fin.ext; rw [byte_of_lt _ (by omega)]; omega
    have e2 : byte ((a.val % 4 * 16 + b.val / 16) % 16 * 16 + (b.val % 16 * 4 + c.val / 64) / 4)
        = b := by
      apply Fin.ext; rw [byte_of_lt _ (by omega)]; omega
    have e3 : byte ((b.val % 16 * 4 + c.val / 64) % 4 * 64 + c.val % 64) = c := by
      apply Fin.ext; rw [byte_of_lt _ (by omega)]; omega
    simp only [EncodeToString, DecodeString, h0.1, h1.1, h2.1, h3.1, h2.2, h3.2, false_and,
      and_false, if_false, ih, Option.map_some', e1, e2, e3]
  | case2 a b =>
    have ha := a.isLt
    have hb := b.isLt
    have h0 := b64Value_b64 ⟨a.val / 4, by omega⟩
    have h1 := b64Value_b64 ⟨a.val % 4 * 16 + b.val / 16, by omega⟩
    have h2 := b64Value_b64 ⟨b.val % 16 * 4, by omega⟩
    simp only at h0 h1 h2
    have e1 : byte (a.val / 4 * 4 + (a.val % 4 * 16 + b.val / 16) / 16) = a := by
      apply Fin.ext; rw [byte_of_lt _ (by omega)]; omega
    have e2 : byte ((a.val % 4 * 16 + b.val / 16) % 16 * 16 + (b.val % 16 * 4) / 4) = b := by
      apply Fin.ext; rw [byte_of_lt _ (by omega)]; omega
    have e3 : b.val % 16 * 4 % 4 = 0 := by omega
    simp only [EncodeToString, DecodeString, h0.1, h1.1, h2.1, h2.2, false_and, if_false,
      true_and, and_self, if_true, e1, e2, e3]
  | case3 a =>
    have ha := a.isLt
    have h0 := b64Value_b64 ⟨a.val / 4, by omega⟩
    have h1 := b64Value_b64 ⟨a.val % 4 * 16, by omega⟩
    simp only at h0 h1
    have e1 : byte (a.val / 4 * 4 + (a.val % 4 * 16) / 16) = a := by
      apply Fin.ext; rw [byte_of_lt _ (by omega)]; omega
    have e3 : a.val % 4 * 16 % 16 = 0 := by omega
    simp only [EncodeToString, DecodeString, h0.1, h1.1, and_self, if_true, e1, e3]
  | case4 => rfl

/-! ## `Encode` does not depend on the order of the map -/

theorem strLe_cons (x y : Byte) (a b : GoString) :
    strLe (x :: a) (y :: b) = true ↔ x < y ∨ (x = y ∧ strLe a b = true) := by
  simp only [strLe]
  split_ifs with h1 h2
  · simp [h1]
  · have hne : x ≠ y := ne_of_gt h2
    simp [h1, hne]
  · have hxy : x = y := le_antisymm (not_lt.mp h2) (not_lt.mp h1)
    simp [hxy]

theorem strLe_total (a b : GoString) : strLe a b = true ∨ strLe b a = true := by
  induction a generalizing b with
  | nil => left; simp [strLe]
  | cons x a ih =>
    cases b with
    | nil => right; simp [strLe]
    | cons y b =>
      rw [strLe_cons, strLe_cons]
      rcases lt_trichotomy x y with h | h | h
      · exact Or.inl (Or.inl h)
      · rcases ih b with h2 | h2
        · exact Or.inl (Or.inr ⟨h, h2⟩)
        · exact Or.inr (Or.inr ⟨h.symm, h2⟩)
      · exact Or.inr (Or.inl h)

theorem strLe_trans (a b c : GoString) (h1 : strLe a b = true) (h2 : strLe b c = true) :
    strLe a c = true := by
  induction a generalizing b c with
  | nil => simp [strLe]
  | cons x a ih =>
    cases b with
    | nil => simp [strLe] at h1
    | cons y b =>
      cases c with
      | nil => simp [strLe] at h2
      | cons z c =>
        rw [strLe_cons] at h1 h2 ⊢
        rcases h1 with h1 | ⟨rfl, h1⟩
        · rcases h2 with h2 | ⟨rfl, h2⟩
          · exact Or.inl (lt_trans h1 h2)
          · exact Or.inl h1
        · rcases h2 with h2 | ⟨rfl, h2⟩
          · exact Or.inl h2
          · exact Or.inr ⟨rfl, ih b c h1 h2⟩

theorem strLe_antisymm (a b : GoString) (h1 : strLe a b = true) (h2 : strLe b a = true) :
    a = b := by
  induction a generalizing b with
  | nil =>
    cases b with
    | nil => rfl
    | cons y b => simp [strLe] at h2
  | cons x a ih =>
    cases b with
    | nil => simp [strLe] at h1
    | cons y b =>
      rw [strLe_cons] at h1 h2
      rcases h1 with h1 | ⟨rfl, h1⟩
      · rcases h2 with h2 | ⟨rfl, h2⟩
        · exact absurd h1 (lt_asymm h2)
        · exact absurd h1 (lt_irrefl _)
      · rcases h2 with h2 | ⟨_, h2⟩
        · exact absurd h2 (lt_irrefl _)
        · rw [ih b h1 h2]

theorem flatMap_filter_nonempty (f : GoString → List GoString) (l : List GoString) :
    l.flatMap f = (l.filter fun k => !(f k).isEmpty).flatMap f := by
  induction l with
  | nil => rfl
  | cons k l ih =>
    rw [List.flatMap_cons, List.filter_cons]
    by_cases h : (f k).isEmpty = true
    · have hk : f k = [] := List.isEmpty_iff.mp h
      simp [h, hk, ih]
    · simp [h, ih]

theorem mem_fst_of_lookup_ne_nil (v : Values) (k : GoString) (h : Values.lookup v k ≠ []) :
    k ∈ v.map Prod.fst := by
  by_contra hk
  exact h (lookup_eq_nil v k hk)

/-- Two association lists that hold the same values under every key are encoded
to the same text: `Encode` sorts the keys, so the order in which a Go map
hands out its entries does not show in the result. -/
theorem Encode_eq_of_same_content (v v2 : Values)
    (h : ∀ k, Values.lookup v k = Values.lookup v2 k) : Values.Encode v = Values.Encode v2 := by
  haveI : IsTotal GoString (fun a b => strLe a b = true) := ⟨strLe_total⟩
  haveI : IsTrans GoString (fun a b => strLe a b = true) := ⟨strLe_trans⟩
  haveI : IsAntisymm GoString (fun a b => strLe a b = true) := ⟨strLe_antisymm⟩
  have hf : (fun k => (Values.lookup v k).map fun x => encodePiece k x)
      = (fun k => (Values.lookup v2 k).map fun x => encodePiece k x) := by
    funext k; rw [h k]
  have hmem : ∀ (u : Values) (k : GoString),
      k ∈ ((Values.keys u).insertionSort (fun a b => strLe a b = true)).filter
          (fun k => !((Values.lookup u k).map fun x => encodePiece k x).isEmpty)
        ↔ Values.lookup u k ≠ [] := by
    intro u k
    rw [List.mem_filter, (List.perm_insertionSort _ _).mem_iff]
    constructor
    · rintro ⟨_, hk⟩
      intro hnil
      simp [hnil] at hk
    · intro hk
      refine ⟨by simpa [Values.keys] using mem_fst_of_lookup_ne_nil u k hk, ?_⟩
      cases hl : Values.lookup u k with
      | nil => exact absurd hl hk
      | cons x xs => simp
  have hsort : ∀ u : Values,
      (((Values.keys u).insertionSort (fun a b => strLe a b = true)).filter
        (fun k => !((Values.lookup u k).map fun x => encodePiece k x).isEmpty)).Sorted
        (fun a b => strLe a b = true) := fun u =>
    List.Pairwise.filter _ (List.sorted_insertionSort _ _)
  have hnd : ∀ u : Values,
      (((Values.keys u).insertionSort (fun a b => strLe a b = true)).filter
        (fun k => !((Values.lookup u k).map fun x => encodePiece k x).isEmpty)).Nodup := fun u =>
    List.Nodup.filter _ ((List.perm_insertionSort _ _).nodup_iff.mpr (List.nodup_dedup _))
  have hkeys := List.eq_of_perm_of_sorted
    ((List.perm_ext_iff_of_nodup (hnd v) (hnd v2)).mpr (fun k => by
      rw [hmem v k, hmem v2 k, h k])) (hsort v) (hsort v2)
  unfold Values.Encode
  simp only
  rw [flatMap_filter_nonempty (fun k => (Values.lookup v k).map fun x => encodePiece k x),
    flatMap_filter_nonempty (fun k => (Values.lookup v2 k).map fun x => encodePiece k x),
    hkeys, hf]

/-! ## The functions of the two files, case by case -/

/-- The URL `createAuthorizationURL` returns is the parsed authorize URL written with
the encoding of a query map `q` that holds the five managed keys with the
value given and every other key as the authorize URL held it; reading the
query of the returned text gives `q` back. -/
theorem createAuthorizationURL_eq (lib : Lib) (settings : OAuth2Config)
    (responseType redirectURL state : GoString) (u : URL)
    (hparse : lib.Parse settings.AuthorizeURL = some u)
    (hq : ch '?' ∉ u.head) (hh : ch '#' ∉ u.head) :
    ∃ q : Values,
      oauth2flow.createAuthorizationURL lib settings responseType redirectURL state
        = some (URL.String
            ⟨u.head, u.ForceQuery, Values.Encode q, u.Fragment, u.EscapedFragment⟩) ∧
      (∀ key, Values.lookup q key =
        if str "scope" = key then [settings.Scope]
        else if str "state" = key then [state]
        else if str "redirect_uri" = key then [redirectURL]
        else if str "response_type" = key then [responseType]
        else if str "client_id" = key then [settings.ClientID]
        else Values.lookup u.Query key) ∧
      (∀ key, Values.lookup (ParseQuery (rawQueryOf (URL.String
          ⟨u.head, u.ForceQuery, Values.Encode q, u.Fragment, u.EscapedFragment⟩))) key
        = Values.lookup q key) := by
  refine ⟨Values.Set (Values.Set (Values.Set (Values.Set (Values.Set u.Query
      (str "client_id") settings.ClientID) (str "response_type") responseType)
      (str "redirect_uri") redirectURL) (str "state") state) (str "scope") settings.Scope,
    ?_, ?_, ?_⟩
  · simp only [oauth2flow.createAuthorizationURL, hparse]
  · intro key
    simp only [lookup_Set]
  · intro key
    rw [rawQueryOf_String ⟨u.head, u.ForceQuery, Values.Encode _, u.Fragment, u.EscapedFragment⟩
      hq hh (Encode_no_hash _), lookup_ParseQuery_Encode]

/-- The query of the URL `createAuthorizationURL` returns, key by key: the five
managed keys hold the value given, every other key what the authorize URL
held. -/
theorem createAuthorizationURL_query (lib : Lib) (settings : OAuth2Config)
    (responseType redirectURL state : GoString) (u : URL)
    (hparse : lib.Parse settings.AuthorizeURL = some u)
    (hq : ch '?' ∉ u.head) (hh : ch '#' ∉ u.head) :
    ∃ out, oauth2flow.createAuthorizationURL lib settings responseType redirectURL state
        = some out ∧
      ∀ key, Values.lookup (ParseQuery (rawQueryOf out)) key =
        if str "scope" = key then [settings.Scope]
        else if str "state" = key then [state]
        else if str "redirect_uri" = key then [redirectURL]
        else if str "response_type" = key then [responseType]
        else if str "client_id" = key then [settings.ClientID]
        else Values.lookup u.Query key := by
  obtain ⟨q, hout, hlook, hread⟩ :=
    createAuthorizationURL_eq lib settings responseType redirectURL state u hparse hq hh
  exact ⟨_, hout, fun key => by rw [hread key, hlook key]⟩

/-- The function `createAuthorizationURL` returns a URL when the authorize URL parses. -/
theorem createAuthorizationURL_some (lib : Lib) (settings : OAuth2Config)
    (responseType redirectURL state : GoString) (u : URL)
    (hparse : lib.Parse settings.AuthorizeURL = some u) :
    ∃ url, oauth2flow.createAuthorizationURL lib settings responseType redirectURL state
      = some url := by
  simp only [oauth2flow.createAuthorizationURL, hparse, Option.some.injEq, exists_eq']

theorem Serve_stopped {τ : Type} (handler : Server τ → Request → Server τ) (s : Server τ)
    (rs : List Request) (h : ¬ (s.running = true ∧ s.l = true)) : Serve handler s rs = s := by
  cases rs with
  | nil => rfl
  | cons r rs => simp only [Serve, if_neg h]

theorem Serve_cons {τ : Type} (handler : Server τ → Request → Server τ) (s : Server τ)
    (r : Request) (rs : List Request) (h : s.running = true ∧ s.l = true) :
    Serve handler s (r :: rs) = Serve handler (handler s r) rs := by
  simp only [Serve, if_pos h]

/-- A property of the state that every handler run keeps holds when `Serve` is
done. -/
theorem Serve_invariant {τ : Type} (handler : Server τ → Request → Server τ)
    (P : Server τ → Prop)
    (hstep : ∀ s r, s.running = true ∧ s.l = true → P s → P (handler s r)) (s : Server τ)
    (rs : List Request) (h : P s) : P (Serve handler s rs) := by
  induction rs generalizing s with
  | nil => exact h
  | cons r rs ih =>
    unfold Serve
    split_ifs with hc
    · exact ih _ (hstep s r hc h)
    · exact h

/-- oauth2flow: a request whose state is not the expected one ends the process. -/
theorem flow_handler_mismatch (lib : Lib) (w : World) (settings : OAuth2Config)
    (redirectURI secretState : GoString) (s : Server AccessToken) (r : Request)
    (h : Values.Get r.Query (str "state") ≠ secretState) :
    oauth2flow.callbackHandler lib w settings redirectURI secretState s r
      = s.Fatal .stateInvalid := by
  simp only [oauth2flow.callbackHandler, if_pos h]

/-- oauth2flow: what the handler does with a request that carries the expected
state, when the token URL parses. -/
theorem flow_handler_match (lib : Lib) (w : World) (settings : OAuth2Config)
    (redirectURI secretState : GoString) (s : Server AccessToken) (r : Request) (tu : URL)
    (h : Values.Get r.Query (str "state") = secretState)
    (hurl : lib.Parse settings.TokenURL = some tu) :
    oauth2flow.callbackHandler lib w settings redirectURI secretState s r
      = match w.Do s.calls
          (specTokenRequest settings (Values.Get r.Query (str "code")) redirectURI) with
        | none =>
          (s.call (.tokenRequest
            (specTokenRequest settings (Values.Get r.Query (str "code")) redirectURI))).Panic
        | some resp =>
          ((((s.call (.tokenRequest
            (specTokenRequest settings (Values.Get r.Query (str "code")) redirectURI))).emit
            (.write closePage)).Send (Decode lib resp.Body zeroToken).1).Close) := by
  simp only [oauth2flow.callbackHandler, h, ne_eq, not_true_eq_false, if_false, NewRequest, hurl,
    HTTPRequest.AddHeader, List.nil_append, List.cons_append, specTokenRequest,
    oauth2flow.tokenForm]

/-- oauth2flow: the handler panics before any call when the token URL does not
parse. -/
theorem flow_handler_bad_token_url (lib : Lib) (w : World) (settings : OAuth2Config)
    (redirectURI secretState : GoString) (s : Server AccessToken) (r : Request)
    (h : Values.Get r.Query (str "state") = secretState)
    (hurl : lib.Parse settings.TokenURL = none) :
    oauth2flow.callbackHandler lib w settings redirectURI secretState s r = s.Panic := by
  simp only [oauth2flow.callbackHandler, h, ne_eq, not_true_eq_false, if_false, NewRequest, hurl]

/-- The keys of the token form in the order `Encode` writes them. -/
theorem tokenForm_sorted_keys (code redirectURI : GoString) :
    (Values.keys [(str "grant_type", [str "authorization_code"]), (str "code", [code]),
        (str "redirect_uri", [redirectURI])]).insertionSort (fun a b => strLe a b = true)
      = [str "code", str "grant_type", str "redirect_uri"] := by
  show (([str "grant_type", str "code", str "redirect_uri"] : List GoString).dedup).insertionSort
    (fun a b => strLe a b = true) = _
  decide

/-- The body of the token request, byte for byte. -/
theorem specTokenRequest_body (settings : OAuth2Config) (code redirectURI : GoString) :
    (specTokenRequest settings code redirectURI).Body
      = str "code=" ++ QueryEscape code
        ++ str "&grant_type=authorization_code&redirect_uri=" ++ QueryEscape redirectURI := by
  have h1 : QueryEscape (str "code") ++ [ch '='] = str "code=" := by decide
  have h2 : ch '&' :: (QueryEscape (str "grant_type") ++ ch '=' ::
      QueryEscape (str "authorization_code")) ++ ch '&' :: (QueryEscape (str "redirect_uri")
      ++ [ch '=']) = str "&grant_type=authorization_code&redirect_uri=" := by decide
  have d1 : str "grant_type" ≠ str "code" := by decide
  have d2 : str "grant_type" ≠ str "redirect_uri" := by decide
  have d3 : str "code" ≠ str "redirect_uri" := by decide
  have l1 : Values.lookup [(str "grant_type", [str "authorization_code"]), (str "code", [code]),
      (str "redirect_uri", [redirectURI])] (str "code") = [code] := by
    simp [Values.lookup, d1]
  have l2 : Values.lookup [(str "grant_type", [str "authorization_code"]), (str "code", [code]),
      (str "redirect_uri", [redirectURI])] (str "grant_type") = [str "authorization_code"] := by
    simp [Values.lookup]
  have l3 : Values.lookup [(str "grant_type", [str "authorization_code"]), (str "code", [code]),
      (str "redirect_uri", [redirectURI])] (str "redirect_uri") = [redirectURI] := by
    simp [Values.lookup, d2, d3]
  simp only [specTokenRequest, Values.Encode, tokenForm_sorted_keys, List.flatMap_cons,
    List.flatMap_nil, l1, l2, l3, List.map_cons, List.map_nil, List.append_nil,
    List.singleton_append]
  rw [foldl_writePiece_cons _ _ (encodePiece_ne_nil _ _)]
  simp only [List.flatMap_cons, List.flatMap_nil, encodePiece, ← h1, ← h2]
  simp [List.append_assoc]

/-- The fields of the body of the token request: the three of the form and no
other. -/
theorem specTokenRequest_fields (settings : OAuth2Config) (code redirectURI key : GoString) :
    Values.lookup (ParseQuery (specTokenRequest settings code redirectURI).Body) key
      = if str "grant_type" = key then [str "authorization_code"]
        else if str "code" = key then [code]
        else if str "redirect_uri" = key then [redirectURI]
        else [] := by
  simp only [specTokenRequest, lookup_ParseQuery_Encode, Values.lookup]

/-- oauth2flow: every request to the token endpoint a handler run adds is the
request of the specification for the code of the callback. -/
theorem flow_handler_tokenRequests (lib : Lib) (w : World) (settings : OAuth2Config)
    (redirectURI secretState : GoString) (s : Server AccessToken) (r : Request)
    (req : HTTPRequest)
    (h : Event.tokenRequest req
      ∈ (oauth2flow.callbackHandler lib w settings redirectURI secretState s r).trace) :
    Event.tokenRequest req ∈ s.trace ∨
      req = specTokenRequest settings (Values.Get r.Query (str "code")) redirectURI := by
  by_cases hs : Values.Get r.Query (str "state") = secretState
  · cases hu : lib.Parse settings.TokenURL with
    | none =>
      rw [flow_handler_bad_token_url lib w settings redirectURI secretState s r hs hu] at h
      simp only [Server.Panic, List.mem_append, List.mem_singleton] at h
      rcases h with h | h
      · exact Or.inl h
      · cases h
    | some tu =>
      rw [flow_handler_match lib w settings redirectURI secretState s r tu hs hu] at h
      cases hd : w.Do s.calls
          (specTokenRequest settings (Values.Get r.Query (str "code")) redirectURI) with
      | none =>
        simp only [hd, Server.Panic, Server.call, List.mem_append, List.mem_singleton] at h
        rcases h with (h | h) | h
        · exact Or.inl h
        · exact Or.inr (Event.tokenRequest.inj h)
        · cases h
      | some resp =>
        simp only [hd, Server.Close, Server.Send, Server.emit, Server.call, List.mem_append,
          List.mem_singleton] at h
        rcases h with (((h | h) | h) | h) | h
        · exact Or.inl h
        · exact Or.inr (Event.tokenRequest.inj h)
        · cases h
        · cases h
        · cases h
  · rw [flow_handler_mismatch lib w settings redirectURI secretState s r hs] at h
    simp only [Server.Fatal, List.mem_append, List.mem_singleton] at h
    rcases h with h | h
    · exact Or.inl h
    · cases h

/-- oauth2flow: a handler run only adds events. -/
theorem flow_handler_extends (lib : Lib) (w : World) (settings : OAuth2Config)
    (redirectURI secretState : GoString) (s : Server AccessToken) (r : Request) :
    ∃ added, (oauth2flow.callbackHandler lib w settings redirectURI secretState s r).trace
      = s.trace ++ added := by
  by_cases hs : Values.Get r.Query (str "state") = secretState
  · cases hu : lib.Parse settings.TokenURL with
    | none =>
      rw [flow_handler_bad_token_url lib w settings redirectURI secretState s r hs hu]
      exact ⟨[.panic], rfl⟩
    | some tu =>
      rw [flow_handler_match lib w settings redirectURI secretState s r tu hs hu]
      cases w.Do s.calls
          (specTokenRequest settings (Values.Get r.Query (str "code")) redirectURI) with
      | none =>
        exact ⟨[.tokenRequest
          (specTokenRequest settings (Values.Get r.Query (str "code")) redirectURI), .panic],
          by simp [Server.Panic, Server.call]⟩
      | some resp =>
        exact ⟨[.tokenRequest
          (specTokenRequest settings (Values.Get r.Query (str "code")) redirectURI),
          .write closePage, .send (Decode lib resp.Body zeroToken).1, .close],
          by simp [Server.Close, Server.Send, Server.emit, Server.call]⟩
  · rw [flow_handler_mismatch lib w settings redirectURI secretState s r hs]
    exact ⟨[.fatal .stateInvalid], rfl⟩

/-- oauth2flow: the flow up to `http.Serve`, when the authorize URL parses and
the listener binds. -/
theorem AuthCodeFlow_serving (lib : Lib) (w : World) (settings : OAuth2Config) (url : GoString)
    (hurl : oauth2flow.createAuthorizationURL lib settings (str "code")
      (str "http://localhost:5000") (w.randomString 10) = some url)
    (hlisten : w.listen = none) :
    oauth2flow.AuthCodeFlow lib w settings
      = (receive (Serve (oauth2flow.callbackHandler lib w settings (str "http://localhost:5000")
            (w.randomString 10)) (Server.start [.openBrowser url]) w.requests),
         (Serve (oauth2flow.callbackHandler lib w settings (str "http://localhost:5000")
            (w.randomString 10)) (Server.start [.openBrowser url]) w.requests).trace) := by
  simp only [oauth2flow.AuthCodeFlow, hurl, hlisten]

/-- oauth2flow: the flow in which the first request carries the expected state
and the token endpoint answers it. -/
theorem AuthCodeFlow_answered (lib : Lib) (w : World) (settings : OAuth2Config) (tu : URL)
    (url : GoString) (r : Request) (rest : List Request) (resp : Response)
    (hurl : oauth2flow.createAuthorizationURL lib settings (str "code")
      (str "http://localhost:5000") (w.randomString 10) = some url)
    (hlisten : w.listen = none)
    (hreq : w.requests = r :: rest)
    (hstate : Values.Get r.Query (str "state") = w.randomString 10)
    (htoken : lib.Parse settings.TokenURL = some tu)
    (hresp : w.Do 0 (specTokenRequest settings (Values.Get r.Query (str "code"))
      (str "http://localhost:5000")) = some resp) :
    oauth2flow.AuthCodeFlow lib w settings
      = (.returned (Decode lib resp.Body zeroToken).1,
          [.openBrowser url,
           .tokenRequest (specTokenRequest settings (Values.Get r.Query (str "code"))
             (str "http://localhost:5000")),
           .write closePage,
           .send (Decode lib resp.Body zeroToken).1,
           .close]) := by
  rw [AuthCodeFlow_serving lib w settings url hurl hlisten, hreq,
    Serve_cons _ _ _ _ (by simp [Server.start]),
    flow_handler_match lib w settings (str "http://localhost:5000") (w.randomString 10) _ r tu
      hstate htoken]
  simp only [Server.start, hresp]
  rw [Serve_stopped _ _ _ (by simp [Server.Close])]
  simp [receive, Server.Close, Server.Send, Server.emit, Server.call]

/-- Serving the requests `pre ++ rs` is serving `pre` and then `rs`. -/
theorem Serve_append {τ : Type} (handler : Server τ → Request → Server τ) (s : Server τ)
    (pre rs : List Request) :
    Serve handler s (pre ++ rs) = Serve handler (Serve handler s pre) rs := by
  induction pre generalizing s with
  | nil => rfl
  | cons r pre ih =>
    by_cases hc : s.running = true ∧ s.l = true
    · rw [List.cons_append, Serve_cons _ _ _ _ hc, Serve_cons _ _ _ _ hc, ih]
    · rw [Serve_stopped _ _ _ hc, Serve_stopped _ _ _ hc, Serve_stopped _ _ _ hc]

/-- oauth2flow: `http.Serve` only adds events. -/
theorem flow_Serve_extends (lib : Lib) (w : World) (settings : OAuth2Config)
    (redirectURI secretState : GoString) (s : Server AccessToken) (rs : List Request) :
    ∃ added, (Serve (oauth2flow.callbackHandler lib w settings redirectURI secretState) s
      rs).trace = s.trace ++ added :=
  Serve_invariant _ (fun s2 => ∃ added, s2.trace = s.trace ++ added)
    (fun s2 r _ hs => by
      obtain ⟨a1, h1⟩ := hs
      obtain ⟨a2, h2⟩ := flow_handler_extends lib w settings redirectURI secretState s2 r
      exact ⟨a1 ++ a2, by rw [h2, h1, List.append_assoc]⟩)
    s rs ⟨[], (List.append_nil _).symm⟩

/-- oauth2flow: the listener is closed only after a token was sent, so a flow that
still waits for its token is still serving. -/
theorem flow_blocked_serving (lib : Lib) (w : World) (settings : OAuth2Config)
    (redirectURI secretState : GoString) (url : GoString) (rs : List Request)
    (h : receive (Serve (oauth2flow.callbackHandler lib w settings redirectURI secretState)
      (Server.start [.openBrowser url]) rs) = .blocked) :
    (Serve (oauth2flow.callbackHandler lib w settings redirectURI secretState)
        (Server.start [.openBrowser url]) rs).running = true ∧
      (Serve (oauth2flow.callbackHandler lib w settings redirectURI secretState)
        (Server.start [.openBrowser url]) rs).l = true := by
  have hinv := Serve_invariant
    (oauth2flow.callbackHandler lib w settings redirectURI secretState)
    (fun s => s.l = false → s.c ≠ [])
    (fun s r hc _ => by
      by_cases hst : Values.Get r.Query (str "state") = secretState
      · cases hu : lib.Parse settings.TokenURL with
        | none =>
          rw [flow_handler_bad_token_url lib w settings _ _ s r hst hu]
          simp [Server.Panic, hc.2]
        | some tu =>
          rw [flow_handler_match lib w settings _ _ s r tu hst hu]
          split
          · simp [Server.Panic, Server.call, hc.2]
          · simp [Server.Close, Server.Send, Server.emit, Server.call]
      · rw [flow_handler_mismatch lib w settings _ _ s r hst]
        simp [Server.Fatal, hc.2])
    (Server.start [.openBrowser url]) rs (by simp [Server.start])
  generalize Serve (oauth2flow.callbackHandler lib w settings redirectURI secretState)
    (Server.start [.openBrowser url]) rs = s at h hinv
  unfold receive at h
  by_cases hr : s.running = true
  · by_cases hl : s.l = true
    · exact ⟨hr, hl⟩
    · have hl2 : s.l = false := by simpa using hl
      have hc := hinv hl2
      simp only [hr, hl2] at h
      cases hcc : s.c with
      | nil => exact absurd hcc hc
      | cons tok rest => simp [hcc] at h
  · simp [hr] at h

/-- oauth2flow: the flow over the requests `rs`, when the authorize URL parses and the
listener binds. -/
theorem AuthCodeFlow_requests (lib : Lib) (w : World) (settings : OAuth2Config)
    (url : GoString) (rs : List Request)
    (hurl : oauth2flow.createAuthorizationURL lib settings (str "code")
      (str "http://localhost:5000") (w.randomString 10) = some url)
    (hlisten : w.listen = none) :
    oauth2flow.AuthCodeFlow lib { w with requests := rs } settings
      = (receive (Serve (oauth2flow.callbackHandler lib w settings (str "http://localhost:5000")
            (w.randomString 10)) (Server.start [.openBrowser url]) rs),
         (Serve (oauth2flow.callbackHandler lib w settings (str "http://localhost:5000")
            (w.randomString 10)) (Server.start [.openBrowser url]) rs).trace) := by
  exact AuthCodeFlow_serving lib { w with requests := rs } settings url hurl hlisten

/-- The five members of a token response fill the five fields. -/
theorem unmarshalObject_five (t : AccessToken) (a tt sc rt lit : GoString) (n : Int)
    (hlit : ParseInt lit = some n) :
    unmarshalObject t
      [(str "access_token", .string a), (str "token_type", .string tt),
       (str "scope", .string sc), (str "expires_in", .number lit),
       (str "refresh_token", .string rt)]
      = (⟨a, tt, sc, n, rt⟩, false) := by
  have f1 : findField (str "access_token") = some .AccessToken := by decide
  have f2 : findField (str "token_type") = some .TokenType := by decide
  have f3 : findField (str "scope") = some .Scope := by decide
  have f4 : findField (str "expires_in") = some .ExpiresIn := by decide
  have f5 : findField (str "refresh_token") = some .RefreshToken := by decide
  simp [unmarshalObject, f1, f2, f3, f4, f5, setField, hlit]

/-- oauth2webflow: a request on another path changes nothing. -/
theorem web_handler_other_path (w : World) (secretState : GoString) (s : Server Token)
    (r : Request) (h : r.Path ≠ str "/") :
    oauth2webflow.callbackHandler w secretState s r = s := by
  simp only [oauth2webflow.callbackHandler, if_pos h]

/-- oauth2webflow: a request on `/` whose state is not the expected one gets the
page and ends the process. -/
theorem web_handler_mismatch (w : World) (secretState : GoString) (s : Server Token)
    (r : Request) (hp : r.Path = str "/")
    (h : Values.Get r.Query (str "state") ≠ secretState) :
    oauth2webflow.callbackHandler w secretState s r
      = (s.emit (.write closePage)).Fatal .stateInvalid := by
  simp only [oauth2webflow.callbackHandler, hp, ne_eq, not_true_eq_false, if_false, h,
    not_false_eq_true, if_true]

/-- oauth2webflow: a request on `/` with the expected state, by the result of the
exchange. -/
theorem web_handler_match (w : World) (secretState : GoString) (s : Server Token)
    (r : Request) (hp : r.Path = str "/")
    (h : Values.Get r.Query (str "state") = secretState) :
    oauth2webflow.callbackHandler w secretState s r
      = match w.Exchange s.calls (Values.Get r.Query (str "code")) with
        | .error err =>
          ((s.emit (.write closePage)).call
            (.exchange (Values.Get r.Query (str "code")))).Fatal (.exchange err)
        | .ok token =>
          ((((s.emit (.write closePage)).call
            (.exchange (Values.Get r.Query (str "code")))).Send token).Close) := by
  simp only [oauth2webflow.callbackHandler, hp, ne_eq, not_true_eq_false, if_false, h,
    Server.emit]

/-! ## The claims -/

/-- C1: a callback request whose `state` parameter is not the expected
`secretState` makes neither handler call the token endpoint or send on the
channel: the handler of oauth2flow.go only logs and ends the process; the
handler of oauth2webflow.go ignores a request off the path `/`, and otherwise
writes the page, logs and ends the process. -/
theorem C1_state_mismatch_no_exchange (lib : Lib) (w : World) (settings : OAuth2Config)
    (redirectURI secretState : GoString) (sf : Server AccessToken) (sw : Server Token)
    (r : Request) (h : Values.Get r.Query (str "state") ≠ secretState) :
    ((oauth2flow.callbackHandler lib w settings redirectURI secretState sf r).trace
        = sf.trace ++ [.fatal .stateInvalid] ∧
      (oauth2flow.callbackHandler lib w settings redirectURI secretState sf r).c = sf.c ∧
      (oauth2flow.callbackHandler lib w settings redirectURI secretState sf r).calls
        = sf.calls) ∧
    ((∃ added, (oauth2webflow.callbackHandler w secretState sw r).trace = sw.trace ++ added ∧
        ∀ e ∈ added, e.isTokenCall = false ∧ e.isSend = false) ∧
      (oauth2webflow.callbackHandler w secretState sw r).c = sw.c ∧
      (oauth2webflow.callbackHandler w secretState sw r).calls = sw.calls) := by
  constructor
  · rw [flow_handler_mismatch lib w settings redirectURI secretState sf r h]
    exact ⟨rfl, rfl, rfl⟩
  · by_cases hp : r.Path = str "/"
    · rw [web_handler_mismatch w secretState sw r hp h]
      refine ⟨⟨[.write closePage, .fatal .stateInvalid], ?_, ?_⟩, rfl, rfl⟩
      · simp [Server.Fatal, Server.emit]
      · intro e he
        simp only [List.mem_cons, List.mem_singleton, List.not_mem_nil, or_false] at he
        rcases he with rfl | rfl <;> exact ⟨rfl, rfl⟩
    · rw [web_handler_other_path w secretState sw r hp]
      exact ⟨⟨[], by simp, by simp⟩, rfl, rfl⟩

/-- C1 at the redirect with `state=wrong`, the expected state being `abcdefghij`. -/
theorem C1_witness :
    Values.Get exWrongState.Query (str "state") ≠ str "abcdefghij" ∧
    (oauth2flow.callbackHandler stdLib exWorld exSettings (str "http://localhost:5000")
        (str "abcdefghij") (Server.start []) exWrongState).trace
      = [] ++ [.fatal .stateInvalid] ∧
    ∃ added, (oauth2webflow.callbackHandler exWorld (str "abcdefghij") (Server.start [])
        exWrongState).trace = [] ++ added ∧
      ∀ e ∈ added, e.isTokenCall = false ∧ e.isSend = false :=
  ⟨by decide,
    (C1_state_mismatch_no_exchange stdLib exWorld exSettings (str "http://localhost:5000")
      (str "abcdefghij") (Server.start []) (Server.start []) exWrongState (by decide)).1.1,
    (C1_state_mismatch_no_exchange stdLib exWorld exSettings (str "http://localhost:5000")
      (str "abcdefghij") (Server.start []) (Server.start []) exWrongState (by decide)).2.1⟩

/-- C2, the failing run: in oauth2flow.go, with two redirects that both carry the
expected state and a token endpoint whose first call fails in the transport,
the handler panics on the nil response without closing the listener, and the
second redirect makes a second request to the token endpoint. -/
theorem C2_flow_makes_two_token_requests :
    (oauth2flow.AuthCodeFlow stdLib exFlakyWorld exSettings).2.tail
        = [.tokenRequest (specTokenRequest exSettings (str "ABC123")
              (str "http://localhost:5000")),
           .panic,
           .tokenRequest (specTokenRequest exSettings (str "ABC123")
              (str "http://localhost:5000")),
           .write closePage,
           .send ⟨str "xyz", str "Bearer", str "read", 3600, str "r1"⟩,
           .close] ∧
      ((oauth2flow.AuthCodeFlow stdLib exFlakyWorld exSettings).2.filter
        Event.isTokenCall).length = 2 := by
  decide

/-- C3: when the authorize URL and the token URL parse, the listener binds, the
first request carries the expected state and the token endpoint answers the
token request with a JSON object, `AuthCodeFlow` returns the token that
object decodes to; the handler sends it on the channel and then closes the
listener.  An object with the five members `access_token`, `token_type`,
`scope`, `expires_in` and `refresh_token` gives the token with these five
values. -/
theorem C3_flow_returns_decoded_token (lib : Lib) (w : World) (settings : OAuth2Config)
    (u tu : URL) (r : Request) (rest : List Request) (resp : Response)
    (members : List (GoString × JSON))
    (hparse : lib.Parse settings.AuthorizeURL = some u)
    (hlisten : w.listen = none)
    (hreq : w.requests = r :: rest)
    (hstate : Values.Get r.Query (str "state") = w.randomString 10)
    (htoken : lib.Parse settings.TokenURL = some tu)
    (hresp : w.Do 0 (specTokenRequest settings (Values.Get r.Query (str "code"))
      (str "http://localhost:5000")) = some resp)
    (hjson : lib.readValue resp.Body = some (.object members)) :
    (oauth2flow.AuthCodeFlow lib w settings).1
        = .returned (unmarshalObject zeroToken members).1 ∧
      (∃ url req, (oauth2flow.AuthCodeFlow lib w settings).2
        = [.openBrowser url, .tokenRequest req, .write closePage,
            .send (unmarshalObject zeroToken members).1, .close]) ∧
      (∀ (a tt sc rt lit : GoString) (n : Int),
        members = [(str "access_token", .string a), (str "token_type", .string tt),
          (str "scope", .string sc), (str "expires_in", .number lit),
          (str "refresh_token", .string rt)] →
        ParseInt lit = some n →
        (oauth2flow.AuthCodeFlow lib w settings).1 = .returned ⟨a, tt, sc, n, rt⟩) := by
  obtain ⟨url, hurl⟩ := createAuthorizationURL_some lib settings (str "code")
    (str "http://localhost:5000") (w.randomString 10) u hparse
  have hrun := AuthCodeFlow_answered lib w settings tu url r rest resp hurl hlisten hreq hstate
    htoken hresp
  have hdec : Decode lib resp.Body zeroToken = unmarshalObject zeroToken members := by
    simp only [Decode, hjson]
  rw [hdec] at hrun
  refine ⟨by rw [hrun], ⟨url, _, by rw [hrun]⟩, ?_⟩
  intro a tt sc rt lit n hm hlit
  rw [hrun, hm, unmarshalObject_five zeroToken a tt sc rt lit n hlit]

/-- C3 at the scenario of the specification: the redirect `/?code=ABC123&state=abcdefghij`
and the token response with `access_token` `xyz` and `expires_in` 3600. -/
theorem C3_witness :
    stdLib.readValue exBody = some (.object exMembers) ∧
      Values.Get exCallback.Query (str "state") = exWorld.randomString 10 ∧
      (oauth2flow.AuthCodeFlow stdLib exWorld exSettings).1
        = .returned ⟨str "xyz", str "Bearer", str "read", 3600, str "r1"⟩ :=
  ⟨by rfl, by decide,
    (C3_flow_returns_decoded_token stdLib exWorld exSettings exAuthorizeURL exTokenURL exCallback
      [] ⟨200, exBody⟩ exMembers (by decide) (by decide) (by decide) (by decide) (by decide)
      (by decide) (by rfl)).2.2 (str "xyz") (str "Bearer") (str "read") (str "r1") (str "3600")
      3600 rfl (by decide)⟩

/-- C4: when the callback carries the expected state and the token URL parses,
the handler of oauth2flow.go makes exactly one request to the token endpoint,
and it is the request of the specification: a POST to `settings.TokenURL`,
the headers `Content-Type: application/x-www-form-urlencoded` and
`Authorization: Basic base64(ClientID:ClientSecret)`, and as body the form
encoding of exactly the fields `grant_type=authorization_code`, `code` and
`redirect_uri`. -/
theorem C4_token_request_shape (lib : Lib) (w : World) (settings : OAuth2Config)
    (redirectURI secretState code : GoString) (s : Server AccessToken) (r : Request) (tu : URL)
    (hstate : Values.Get r.Query (str "state") = secretState)
    (hcode : Values.Get r.Query (str "code") = code)
    (hurl : lib.Parse settings.TokenURL = some tu) :
    ∃ req tail,
      (oauth2flow.callbackHandler lib w settings redirectURI secretState s r).trace
        = s.trace ++ .tokenRequest req :: tail ∧
      (∀ e ∈ tail, e.isTokenCall = false) ∧
      req = specTokenRequest settings code redirectURI ∧
      req.Method = str "POST" ∧
      req.URL = settings.TokenURL ∧
      req.Header = [(str "Content-Type", str "application/x-www-form-urlencoded"),
        (str "Authorization", str "Basic " ++
          EncodeToString (settings.ClientID ++ str ":" ++ settings.ClientSecret))] ∧
      req.Body = str "code=" ++ QueryEscape code
        ++ str "&grant_type=authorization_code&redirect_uri=" ++ QueryEscape redirectURI ∧
      ∀ key, Values.lookup (ParseQuery req.Body) key
        = if str "grant_type" = key then [str "authorization_code"]
          else if str "code" = key then [code]
          else if str "redirect_uri" = key then [redirectURI]
          else [] := by
  have hshape : ∃ tail,
      (oauth2flow.callbackHandler lib w settings redirectURI secretState s r).trace
        = s.trace ++ .tokenRequest (specTokenRequest settings code redirectURI) :: tail ∧
      (∀ e ∈ tail, e.isTokenCall = false) := by
    rw [flow_handler_match lib w settings redirectURI secretState s r tu hstate hurl, hcode]
    cases w.Do s.calls (specTokenRequest settings code redirectURI) with
    | none =>
      refine ⟨[.panic], by simp [Server.Panic, Server.call], ?_⟩
      intro e he
      simp only [List.mem_singleton] at he
      subst he
      rfl
    | some resp =>
      refine ⟨[.write closePage, .send (Decode lib resp.Body zeroToken).1, .close],
        by simp [Server.Close, Server.Send, Server.emit, Server.call], ?_⟩
      intro e he
      simp only [List.mem_cons, List.mem_singleton, List.not_mem_nil, or_false] at he
      rcases he with rfl | rfl | rfl <;> rfl
  obtain ⟨tail, htrace, htail⟩ := hshape
  exact ⟨_, tail, htrace, htail, rfl, rfl, rfl, rfl, specTokenRequest_body settings code redirectURI,
    specTokenRequest_fields settings code redirectURI⟩

/-- C4 at the redirect `/?code=ABC123&state=abcdefghij` with client `id` and secret
`secret`: the body and the `Authorization` header byte for byte. -/
theorem C4_witness :
    ∃ req tail,
      (oauth2flow.callbackHandler stdLib exWorld exSettings (str "http://localhost:5000")
          (str "abcdefghij") (Server.start []) exCallback).trace
        = [] ++ .tokenRequest req :: tail ∧
      req.Method = str "POST" ∧
      req.URL = str "https://example.com/token" ∧
      req.Header = [(str "Content-Type", str "application/x-www-form-urlencoded"),
        (str "Authorization", str "Basic aWQ6c2VjcmV0")] ∧
      req.Body = str ("code=ABC123&grant_type=authorization_code" ++
        "&redirect_uri=http%3A%2F%2Flocalhost%3A5000") := by
  obtain ⟨req, tail, h1, _, _, h4, h5, h6, h7, _⟩ :=
    C4_token_request_shape stdLib exWorld exSettings (str "http://localhost:5000")
      (str "abcdefghij") (str "ABC123") (Server.start []) exCallback exTokenURL
      (by decide) (by decide) (by decide)
  refine ⟨req, tail, h1, h4, h5, ?_, ?_⟩
  · rw [h6]; decide
  · rw [h7]; decide

/-- C5 as amended: with the expected state, a failing exchange is not reported to
the caller.  In oauth2flow.go, whatever status and body the token endpoint
answers with, `AuthCodeFlow` returns the token as decoded from the body, which is
the zero token when no JSON value can be read.  In oauth2webflow.go, an
error of `conf.Exchange` ends the process with `log.Fatal` before anything is
sent on the channel. -/
theorem C5_exchange_failure_is_not_reported :
    (∀ (lib : Lib) (w : World) (settings : OAuth2Config) (u tu : URL) (r : Request)
        (rest : List Request) (resp : Response),
      lib.Parse settings.AuthorizeURL = some u →
      w.listen = none →
      w.requests = r :: rest →
      Values.Get r.Query (str "state") = w.randomString 10 →
      lib.Parse settings.TokenURL = some tu →
      w.Do 0 (specTokenRequest settings (Values.Get r.Query (str "code"))
        (str "http://localhost:5000")) = some resp →
      (oauth2flow.AuthCodeFlow lib w settings).1
          = .returned (Decode lib resp.Body zeroToken).1 ∧
        (lib.readValue resp.Body = none →
          (oauth2flow.AuthCodeFlow lib w settings).1 = .returned zeroToken)) ∧
    (∀ (w : World) (r : Request) (rest : List Request) (err : GoString),
      w.openURLBrowser (w.AuthCodeURL (w.randomString 10)) = none →
      w.listen = none →
      w.requests = r :: rest →
      r.Path = str "/" →
      Values.Get r.Query (str "state") = w.randomString 10 →
      w.Exchange 0 (Values.Get r.Query (str "code")) = .error err →
      oauth2webflow.BrowserAuthCodeFlow w
        = (.exited,
            [.openBrowser (w.AuthCodeURL (w.randomString 10)), .write closePage,
             .exchange (Values.Get r.Query (str "code")), .fatal (.exchange err)])) := by
  constructor
  · intro lib w settings u tu r rest resp hparse hlisten hreq hstate htoken hresp
    obtain ⟨url, hurl⟩ := createAuthorizationURL_some lib settings (str "code")
      (str "http://localhost:5000") (w.randomString 10) u hparse
    have hrun := AuthCodeFlow_answered lib w settings tu url r rest resp hurl hlisten hreq
      hstate htoken hresp
    refine ⟨by rw [hrun], ?_⟩
    intro hnone
    rw [hrun]
    simp only [Decode, hnone]
  · intro w r rest err hbrowser hlisten hreq hpath hstate herr
    simp only [oauth2webflow.BrowserAuthCodeFlow, hbrowser, hlisten, hreq]
    rw [Serve_cons _ _ _ _ (by simp [Server.start]),
      web_handler_match w (w.randomString 10) _ r hpath hstate]
    simp only [Server.start, Server.emit, herr]
    rw [Serve_stopped _ _ _ (by simp [Server.Fatal, Server.call])]
    simp [Server.Fatal, Server.call]

/-- C5 as amended, at the token endpoint that answers HTTP 500 with the body
`Internal Server Error`: `AuthCodeFlow` returns the zero token. -/
theorem C5_witness :
    (oauth2flow.AuthCodeFlow stdLib exFailingWorld exSettings).1 = .returned zeroToken :=
  (C5_exchange_failure_is_not_reported.1 stdLib exFailingWorld exSettings exAuthorizeURL
    exTokenURL exCallback [] ⟨500, str "Internal Server Error"⟩ (by decide) (by decide)
    (by decide) (by decide) (by decide) (by decide)).2 (by rfl)

/-- C5 as stated fails: with the expected state and a token endpoint that answers
HTTP 500, `AuthCodeFlow` returns an `AccessToken` (the zero value) as after a
successful exchange, and `BrowserAuthCodeFlow` ends the process. -/
theorem C5_counterexample :
    (oauth2flow.AuthCodeFlow stdLib exFailingWorld exSettings).1
        = .returned ⟨[], [], [], 0, []⟩ ∧
      (oauth2webflow.BrowserAuthCodeFlow exFailingWorld).1 = .exited := by
  decide

/-- C6, the failing run: in oauth2flow.go a redirect with a wrong state ends the
process before anything is written to the response, while the handler of
oauth2webflow.go writes the page first. -/
theorem C6_flow_mismatch_writes_no_page :
    (oauth2flow.callbackHandler stdLib exWorld exSettings (str "http://localhost:5000")
        (str "abcdefghij") (Server.start []) exWrongState).trace = [.fatal .stateInvalid] ∧
      (oauth2webflow.callbackHandler exWorld (str "abcdefghij") (Server.start [])
        exWrongState).trace = [.write closePage, .fatal .stateInvalid] := by
  decide

/-- C7: for every configuration whose authorize URL parses, the query of the URL
`createAuthorizationURL` returns holds each of `client_id`, `response_type`,
`redirect_uri`, `state` and `scope` with exactly one value, the one given.
Two calls with the same inputs return the same string: the result is a
function of the inputs, and it is the same for every order in which the map
of query values may hand out its entries. -/
theorem C7_authorization_url_has_five_parameters (lib : Lib) (settings : OAuth2Config)
    (responseType redirectURL state : GoString) (u : URL)
    (hparse : lib.Parse settings.AuthorizeURL = some u)
    (hq : ch '?' ∉ u.head) (hh : ch '#' ∉ u.head) :
    ∃ out, oauth2flow.createAuthorizationURL lib settings responseType redirectURL state
        = some out ∧
      Values.lookup (ParseQuery (rawQueryOf out)) (str "client_id") = [settings.ClientID] ∧
      Values.lookup (ParseQuery (rawQueryOf out)) (str "response_type") = [responseType] ∧
      Values.lookup (ParseQuery (rawQueryOf out)) (str "redirect_uri") = [redirectURL] ∧
      Values.lookup (ParseQuery (rawQueryOf out)) (str "state") = [state] ∧
      Values.lookup (ParseQuery (rawQueryOf out)) (str "scope") = [settings.Scope] ∧
      (∀ out2, oauth2flow.createAuthorizationURL lib settings responseType redirectURL state
        = some out2 → out2 = out) ∧
      (∀ q2 : Values,
        (∀ key, Values.lookup q2 key =
          if str "scope" = key then [settings.Scope]
          else if str "state" = key then [state]
          else if str "redirect_uri" = key then [redirectURL]
          else if str "response_type" = key then [responseType]
          else if str "client_id" = key then [settings.ClientID]
          else Values.lookup u.Query key) →
        URL.String ⟨u.head, u.ForceQuery, Values.Encode q2, u.Fragment, u.EscapedFragment⟩
          = out) := by
  obtain ⟨q, hout, hlook, hread⟩ :=
    createAuthorizationURL_eq lib settings responseType redirectURL state u hparse hq hh
  have hkeys : ∀ key, Values.lookup (ParseQuery (rawQueryOf (URL.String
      ⟨u.head, u.ForceQuery, Values.Encode q, u.Fragment, u.EscapedFragment⟩))) key =
        if str "scope" = key then [settings.Scope]
        else if str "state" = key then [state]
        else if str "redirect_uri" = key then [redirectURL]
        else if str "response_type" = key then [responseType]
        else if str "client_id" = key then [settings.ClientID]
        else Values.lookup u.Query key := fun key => by rw [hread key, hlook key]
  refine ⟨_, hout, ?_, ?_, ?_, ?_, ?_, ?_, ?_⟩
  · rw [hkeys, if_neg (by decide), if_neg (by decide), if_neg (by decide), if_neg (by decide),
      if_pos rfl]
  · rw [hkeys, if_neg (by decide), if_neg (by decide), if_neg (by decide), if_pos rfl]
  · rw [hkeys, if_neg (by decide), if_neg (by decide), if_pos rfl]
  · rw [hkeys, if_neg (by decide), if_pos rfl]
  · rw [hkeys, if_pos rfl]
  · intro out2 h2
    rw [hout] at h2
    exact (Option.some.inj h2).symm
  · intro q2 h2
    rw [Encode_eq_of_same_content q2 q (fun k => by rw [h2 k, hlook k])]

/-- C7 at `exSettings`, whose authorize URL is
`https://example.com/auth?foo=bar&state=old&foo=baz`. -/
theorem C7_witness :
    stdLib.Parse exSettings.AuthorizeURL = some exAuthorizeURL ∧
      ∃ out, oauth2flow.createAuthorizationURL stdLib exSettings (str "code")
          (str "http://localhost:5000") (str "abcdefghij") = some out ∧
        Values.lookup (ParseQuery (rawQueryOf out)) (str "client_id") = [str "id"] ∧
        Values.lookup (ParseQuery (rawQueryOf out)) (str "response_type") = [str "code"] ∧
        Values.lookup (ParseQuery (rawQueryOf out)) (str "redirect_uri")
          = [str "http://localhost:5000"] ∧
        Values.lookup (ParseQuery (rawQueryOf out)) (str "state") = [str "abcdefghij"] ∧
        Values.lookup (ParseQuery (rawQueryOf out)) (str "scope") = [str "read"] := by
  obtain ⟨out, h0, h1, h2, h3, h4, h5, _⟩ :=
    C7_authorization_url_has_five_parameters stdLib exSettings (str "code")
      (str "http://localhost:5000") (str "abcdefghij") exAuthorizeURL (by decide) (by decide)
      (by decide)
  exact ⟨by decide, out, h0, h1, h2, h3, h4, h5⟩

set_option maxRecDepth 100000 in
/-- C8 as stated fails on the authorize URL
`https://example.com/auth?x=1&y=2&x=3&bad=%zz&a;b=1&&k`.  The URL parses, and its
query carries the parameters `bad=%zz` and `a;b=1`, whose keys are not among
the five; the URL `createAuthorizationURL` returns (`exDroppedURL`) carries
neither: its query holds the five keys, `k=`, `x=1`, `x=3` and `y=2`, and
reading it back gives no value for `bad`, `a;b`, `a` or `b`. -/
theorem C8_counterexample :
    stdLib.Parse exDroppingSettings.AuthorizeURL = some exDroppingURL ∧
      (str "bad", str "%zz") ∈ writtenPairs (rawQueryOf exDroppingSettings.AuthorizeURL) ∧
      str "bad" ∉ managedKeys ∧
      (str "a;b", str "1") ∈ writtenPairs (rawQueryOf exDroppingSettings.AuthorizeURL) ∧
      str "a;b" ∉ managedKeys ∧
      oauth2flow.createAuthorizationURL stdLib exDroppingSettings (str "code")
        (str "http://localhost:5000") (str "abcdefghij") = some exDroppedURL ∧
      writtenPairs (rawQueryOf exDroppedURL)
        = [(str "client_id", str "id"), (str "k", str ""),
           (str "redirect_uri", str "http%3A%2F%2Flocalhost%3A5000"),
           (str "response_type", str "code"), (str "scope", str "read"),
           (str "state", str "abcdefghij"), (str "x", str "1"), (str "x", str "3"),
           (str "y", str "2")] ∧
      Values.lookup (ParseQuery (rawQueryOf exDroppedURL)) (str "bad") = [] ∧
      Values.lookup (ParseQuery (rawQueryOf exDroppedURL)) (str "a;b") = [] ∧
      Values.lookup (ParseQuery (rawQueryOf exDroppedURL)) (str "a") = [] ∧
      Values.lookup (ParseQuery (rawQueryOf exDroppedURL)) (str "b") = [] := by
  decide

/-- C8 as amended: for every authorize URL that parses, whatever its query holds,
the query of the URL `createAuthorizationURL` returns reads back as follows.
A key that is not one of the five managed keys has exactly the values of the
accepted pairs with that key in the query of the authorize URL, unescaped and
in their order; a pair is accepted when its piece between two `&` is not
empty, holds no `;`, and its key and its value unescape, so a pair with a `;`
or a bad percent escape is dropped.  Each of the five managed keys has the
single value supplied, whatever values it had in the authorize URL. -/
theorem C8_accepted_parameters_kept (lib : Lib) (settings : OAuth2Config)
    (responseType redirectURL state : GoString) (u : URL)
    (hparse : lib.Parse settings.AuthorizeURL = some u)
    (hq : ch '?' ∉ u.head) (hh : ch '#' ∉ u.head) :
    ∃ out, oauth2flow.createAuthorizationURL lib settings responseType redirectURL state
        = some out ∧
      (∀ key, key ∉ managedKeys →
        Values.lookup (ParseQuery (rawQueryOf out)) key
          = (((split (ch '&') u.RawQuery).filterMap acceptedPair).filter
              fun kv => kv.1 = key).map Prod.snd) ∧
      (Values.lookup (ParseQuery (rawQueryOf out)) (str "client_id") = [settings.ClientID] ∧
        Values.lookup (ParseQuery (rawQueryOf out)) (str "response_type") = [responseType] ∧
        Values.lookup (ParseQuery (rawQueryOf out)) (str "redirect_uri") = [redirectURL] ∧
        Values.lookup (ParseQuery (rawQueryOf out)) (str "state") = [state] ∧
        Values.lookup (ParseQuery (rawQueryOf out)) (str "scope") = [settings.Scope]) := by
  obtain ⟨out, hout, hkeys⟩ :=
    createAuthorizationURL_query lib settings responseType redirectURL state u hparse hq hh
  refine ⟨out, hout, ?_, ?_, ?_, ?_, ?_, ?_⟩
  · intro key hkey
    simp only [managedKeys, List.mem_cons, List.mem_singleton, not_or, List.not_mem_nil,
      or_false] at hkey
    obtain ⟨h1, h2, h3, h4, h5⟩ := hkey
    rw [hkeys, if_neg (Ne.symm h5), if_neg (Ne.symm h4), if_neg (Ne.symm h3),
      if_neg (Ne.symm h2), if_neg (Ne.symm h1), URL.Query, ParseQuery, parseQuery_accepted,
      lookup_foldl_Add]
    simp [Values.lookup]
  · rw [hkeys, if_neg (by decide), if_neg (by decide), if_neg (by decide), if_neg (by decide),
      if_pos rfl]
  · rw [hkeys, if_neg (by decide), if_neg (by decide), if_neg (by decide), if_pos rfl]
  · rw [hkeys, if_neg (by decide), if_neg (by decide), if_pos rfl]
  · rw [hkeys, if_neg (by decide), if_pos rfl]
  · rw [hkeys, if_pos rfl]

set_option maxRecDepth 100000 in
/-- C8 as amended, at `exSettings` and at `exDroppingSettings`.  From
`foo=bar&state=old&foo=baz`, `foo` keeps both values and `state` holds the new
value only; from `x=1&y=2&x=3&bad=%zz&a;b=1&&k`, `x`, `y` and `k` keep their
values and `bad` has none. -/
theorem C8_witness :
    (∃ out, oauth2flow.createAuthorizationURL stdLib exSettings (str "code")
        (str "http://localhost:5000") (str "abcdefghij") = some out ∧
      Values.lookup (ParseQuery (rawQueryOf out)) (str "foo") = [str "bar", str "baz"] ∧
      Values.lookup (ParseQuery (rawQueryOf out)) (str "state") = [str "abcdefghij"]) ∧
    (∃ out, oauth2flow.createAuthorizationURL stdLib exDroppingSettings (str "code")
        (str "http://localhost:5000") (str "abcdefghij") = some out ∧
      Values.lookup (ParseQuery (rawQueryOf out)) (str "x") = [str "1", str "3"] ∧
      Values.lookup (ParseQuery (rawQueryOf out)) (str "y") = [str "2"] ∧
      Values.lookup (ParseQuery (rawQueryOf out)) (str "k") = [str ""] ∧
      Values.lookup (ParseQuery (rawQueryOf out)) (str "bad") = []) := by
  obtain ⟨out, hout, hkeep, hset⟩ :=
    C8_accepted_parameters_kept stdLib exSettings (str "code") (str "http://localhost:5000")
      (str "abcdefghij") exAuthorizeURL (by decide) (by decide) (by decide)
  obtain ⟨out2, hout2, hkeep2, _⟩ :=
    C8_accepted_parameters_kept stdLib exDroppingSettings (str "code")
      (str "http://localhost:5000") (str "abcdefghij") exDroppingURL (by decide) (by decide)
      (by decide)
  refine ⟨⟨out, hout, ?_, hset.2.2.2.1⟩, ⟨out2, hout2, ?_, ?_, ?_, ?_⟩⟩
  · rw [hkeep (str "foo") (by decide)]; decide
  · rw [hkeep2 (str "x") (by decide)]; decide
  · rw [hkeep2 (str "y") (by decide)]; decide
  · rw [hkeep2 (str "k") (by decide)]; decide
  · rw [hkeep2 (str "bad") (by decide)]; decide

/-- C9, the failing runs: the handler of oauth2flow.go does not look at the path.
A request for `/favicon.ico` ends the process, and a request for `/other` that
carries the code and the state is exchanged, answered and closes the listener;
the handler of oauth2webflow.go leaves the state as it is on both. -/
theorem C9_flow_handles_other_paths :
    (oauth2flow.callbackHandler stdLib exWorld exSettings (str "http://localhost:5000")
        (str "abcdefghij") (Server.start []) exFavicon).trace = [.fatal .stateInvalid] ∧
      (oauth2flow.callbackHandler stdLib exWorld exSettings (str "http://localhost:5000")
        (str "abcdefghij") (Server.start []) exFavicon).running = false ∧
      (oauth2flow.callbackHandler stdLib exWorld exSettings (str "http://localhost:5000")
        (str "abcdefghij") (Server.start []) exOtherPath).trace
        = [.tokenRequest (specTokenRequest exSettings (str "ABC123")
              (str "http://localhost:5000")),
           .write closePage,
           .send ⟨str "xyz", str "Bearer", str "read", 3600, str "r1"⟩,
           .close] ∧
      (oauth2flow.callbackHandler stdLib exWorld exSettings (str "http://localhost:5000")
        (str "abcdefghij") (Server.start []) exOtherPath).l = false ∧
      (oauth2webflow.callbackHandler exWorld (str "abcdefghij") (Server.start [])
        exFavicon).trace = [] ∧
      (oauth2webflow.callbackHandler exWorld (str "abcdefghij") (Server.start [])
        exOtherPath).trace = [] := by
  decide

/-- C10: within one `AuthCodeFlow` the values agree.  The URL handed to the browser
carries `redirect_uri=http://localhost:5000`, `response_type=code` and as
`state` the string `randomString(10)` returned.  Whenever a request `r`
reaches the listener while the flow still waits for its token (the requests
`pre` before it leave the flow blocked, with trace `t`): if the `state` of `r`
is not the `state` of the URL, the flow ends the process with `r`
(`log.Fatal`, no request to the token endpoint); if it is the `state` of the
URL and the token URL parses, the flow does send the token request for `r`,
and the `redirect_uri` of its form is the `redirect_uri` of the URL.  Every
request to the token endpoint in the trace carries that `redirect_uri`. -/
theorem C10_flow_uses_values_consistently (lib : Lib) (w : World) (settings : OAuth2Config)
    (u : URL) (hparse : lib.Parse settings.AuthorizeURL = some u)
    (hq : ch '?' ∉ u.head) (hh : ch '#' ∉ u.head) :
    ∃ url,
      (oauth2flow.AuthCodeFlow lib w settings).2.head? = some (.openBrowser url) ∧
      Values.lookup (ParseQuery (rawQueryOf url)) (str "redirect_uri")
        = [str "http://localhost:5000"] ∧
      Values.lookup (ParseQuery (rawQueryOf url)) (str "response_type") = [str "code"] ∧
      Values.lookup (ParseQuery (rawQueryOf url)) (str "state") = [w.randomString 10] ∧
      (∀ (pre : List Request) (r : Request) (rest : List Request)
          (t : List (Event AccessToken)),
        w.requests = pre ++ r :: rest →
        oauth2flow.AuthCodeFlow lib { w with requests := pre } settings = (.blocked, t) →
        ([Values.Get r.Query (str "state")]
            ≠ Values.lookup (ParseQuery (rawQueryOf url)) (str "state") →
          oauth2flow.AuthCodeFlow lib w settings = (.exited, t ++ [.fatal .stateInvalid])) ∧
        ([Values.Get r.Query (str "state")]
            = Values.lookup (ParseQuery (rawQueryOf url)) (str "state") →
          ∀ tu, lib.Parse settings.TokenURL = some tu →
            ∃ req tail,
              (oauth2flow.AuthCodeFlow lib w settings).2 = t ++ .tokenRequest req :: tail ∧
              Values.lookup (ParseQuery req.Body) (str "redirect_uri")
                = Values.lookup (ParseQuery (rawQueryOf url)) (str "redirect_uri"))) ∧
      (∀ req, Event.tokenRequest req ∈ (oauth2flow.AuthCodeFlow lib w settings).2 →
        Values.lookup (ParseQuery req.Body) (str "redirect_uri")
          = Values.lookup (ParseQuery (rawQueryOf url)) (str "redirect_uri")) := by
  obtain ⟨url, hurl, hkeys⟩ := createAuthorizationURL_query lib settings (str "code")
    (str "http://localhost:5000") (w.randomString 10) u hparse hq hh
  have hfield : ∀ code, Values.lookup (ParseQuery (specTokenRequest settings code
      (str "http://localhost:5000")).Body) (str "redirect_uri")
      = [str "http://localhost:5000"] := by
    intro code
    rw [specTokenRequest_fields, if_neg (by decide), if_neg (by decide), if_pos rfl]
  have hredirect : Values.lookup (ParseQuery (rawQueryOf url)) (str "redirect_uri")
      = [str "http://localhost:5000"] := by
    rw [hkeys, if_neg (by decide), if_neg (by decide), if_pos rfl]
  have hstate : Values.lookup (ParseQuery (rawQueryOf url)) (str "state")
      = [w.randomString 10] := by
    rw [hkeys, if_neg (by decide), if_pos rfl]
  refine ⟨url, ?_, hredirect, ?_, hstate, ?_, ?_⟩
  · cases hl : w.listen with
    | none =>
      rw [AuthCodeFlow_serving lib w settings url hurl hl]
      obtain ⟨added, hadd⟩ := flow_Serve_extends lib w settings (str "http://localhost:5000")
        (w.randomString 10) (Server.start [.openBrowser url]) w.requests
      rw [hadd]
      rfl
    | some err => simp only [oauth2flow.AuthCodeFlow, hurl, hl, List.head?_cons]
  · rw [hkeys, if_neg (by decide), if_neg (by decide), if_neg (by decide), if_pos rfl]
  · intro pre r rest t hreq hpre
    have hl : w.listen = none := by
      cases hl : w.listen with
      | none => rfl
      | some err =>
        simp only [oauth2flow.AuthCodeFlow, hurl, hl, Prod.mk.injEq] at hpre
        exact absurd hpre.1 (by simp)
    rw [AuthCodeFlow_requests lib w settings url pre hurl hl, Prod.mk.injEq] at hpre
    obtain ⟨hblocked, ht⟩ := hpre
    have hopen := flow_blocked_serving lib w settings (str "http://localhost:5000")
      (w.randomString 10) url pre hblocked
    rw [hstate, AuthCodeFlow_serving lib w settings url hurl hl, hreq, Serve_append,
      Serve_cons _ _ _ _ hopen]
    constructor
    · intro hne
      have hne2 : Values.Get r.Query (str "state") ≠ w.randomString 10 :=
        fun h => hne (by rw [h])
      rw [flow_handler_mismatch lib w settings _ _ _ r hne2,
        Serve_stopped _ _ _ (by simp [Server.Fatal])]
      simp [receive, Server.Fatal, ht]
    · intro heq tu htu
      have heq2 : Values.Get r.Query (str "state") = w.randomString 10 := by
        simpa using heq
      obtain ⟨added, hadd⟩ := flow_Serve_extends lib w settings (str "http://localhost:5000")
        (w.randomString 10)
        (oauth2flow.callbackHandler lib w settings (str "http://localhost:5000")
          (w.randomString 10)
          (Serve (oauth2flow.callbackHandler lib w settings (str "http://localhost:5000")
            (w.randomString 10)) (Server.start [.openBrowser url]) pre) r) rest
      refine ⟨specTokenRequest settings (Values.Get r.Query (str "code"))
        (str "http://localhost:5000"), ?_, ?_, (hfield _).trans hredirect.symm⟩
      · exact ((oauth2flow.callbackHandler lib w settings (str "http://localhost:5000")
          (w.randomString 10)
          (Serve (oauth2flow.callbackHandler lib w settings (str "http://localhost:5000")
            (w.randomString 10)) (Server.start [.openBrowser url]) pre) r).trace.drop
          (t.length + 1)) ++ added
      · show (Serve _ _ rest).trace = _
        rw [hadd, flow_handler_match lib w settings _ _ _ r tu heq2 htu]
        split
        · simp [Server.Panic, Server.call, ht]
        · simp [Server.Close, Server.Send, Server.emit, Server.call, ht]
  · intro req hreq
    rw [hredirect]
    cases hl : w.listen with
    | none =>
      rw [AuthCodeFlow_serving lib w settings url hurl hl] at hreq
      have hinv := Serve_invariant
        (oauth2flow.callbackHandler lib w settings (str "http://localhost:5000")
          (w.randomString 10))
        (fun s => ∀ req, Event.tokenRequest req ∈ s.trace →
          Values.lookup (ParseQuery req.Body) (str "redirect_uri")
            = [str "http://localhost:5000"])
        (fun s r _ hs req hmem => by
          rcases flow_handler_tokenRequests lib w settings _ _ s r req hmem with h | h
          · exact hs req h
          · rw [h]; exact hfield _)
        (Server.start [.openBrowser url]) w.requests
        (fun req hmem => by simp [Server.start] at hmem)
      exact hinv req hreq
    | some err =>
      simp only [oauth2flow.AuthCodeFlow, hurl, hl, List.mem_cons, List.mem_singleton,
        List.not_mem_nil, or_false] at hreq
      rcases hreq with h | h <;> cases h

set_option maxRecDepth 100000 in
/-- C10 at `exSettings`: in `exWorld` the redirect carries the state of the URL, and
the flow sends the token request with the `redirect_uri` of the URL; in
`exWrongWorld` the redirect carries another state, and the flow ends the
process without a token request; in `exFlakyWorld` the first token request
fails in the transport, the flow still waits, and the token request for the
second redirect carries the same `redirect_uri`. -/
theorem C10_witness :
    (∃ url,
      (oauth2flow.AuthCodeFlow stdLib exWorld exSettings).2.head? = some (.openBrowser url) ∧
      Values.lookup (ParseQuery (rawQueryOf url)) (str "redirect_uri")
        = [str "http://localhost:5000"] ∧
      Values.lookup (ParseQuery (rawQueryOf url)) (str "response_type") = [str "code"] ∧
      Values.lookup (ParseQuery (rawQueryOf url)) (str "state") = [str "abcdefghij"] ∧
      ∃ req tail,
        (oauth2flow.AuthCodeFlow stdLib exWorld exSettings).2
          = [.openBrowser exAuthorizationURL] ++ .tokenRequest req :: tail ∧
        Values.lookup (ParseQuery req.Body) (str "redirect_uri")
          = Values.lookup (ParseQuery (rawQueryOf url)) (str "redirect_uri")) ∧
      oauth2flow.AuthCodeFlow stdLib exWrongWorld exSettings
        = (.exited, [.openBrowser exAuthorizationURL] ++ [.fatal .stateInvalid]) ∧
      ∃ req tail,
        (oauth2flow.AuthCodeFlow stdLib exFlakyWorld exSettings).2
          = [.openBrowser exAuthorizationURL,
             .tokenRequest (specTokenRequest exSettings (str "ABC123")
               (str "http://localhost:5000")),
             .panic] ++ .tokenRequest req :: tail ∧
        Values.lookup (ParseQuery req.Body) (str "redirect_uri")
          = [str "http://localhost:5000"] := by
  obtain ⟨url, h1, h2, h3, h4, h5, _⟩ :=
    C10_flow_uses_values_consistently stdLib exWorld exSettings exAuthorizeURL (by decide)
      (by decide) (by decide)
  obtain ⟨url2, _, _, _, k4, k5, _⟩ :=
    C10_flow_uses_values_consistently stdLib exWrongWorld exSettings exAuthorizeURL (by decide)
      (by decide) (by decide)
  obtain ⟨url3, _, f2, _, f4, f5, _⟩ :=
    C10_flow_uses_values_consistently stdLib exFlakyWorld exSettings exAuthorizeURL (by decide)
      (by decide) (by decide)
  refine ⟨⟨url, h1, h2, h3, h4, ?_⟩, ?_, ?_⟩
  · exact (h5 [] exCallback [] [.openBrowser exAuthorizationURL] rfl (by decide)).2
      (by rw [h4]; decide) exTokenURL (by decide)
  · exact (k5 [] exWrongState [] [.openBrowser exAuthorizationURL] rfl (by decide)).1
      (by rw [k4]; decide)
  · obtain ⟨req, tail, g1, g2⟩ := (f5 [exCallback] exCallback []
      [.openBrowser exAuthorizationURL,
       .tokenRequest (specTokenRequest exSettings (str "ABC123") (str "http://localhost:5000")),
       .panic] rfl (by decide)).2
      (by rw [f4]; decide) exTokenURL (by decide)
    exact ⟨req, tail, g1, g2.trans f2⟩

/-! ## Further properties of the handlers -/

/-- oauth2flow: while the listener is open nothing has been sent, and at most one
token is ever sent. -/
theorem flow_at_most_one_send (lib : Lib) (w : World) (settings : OAuth2Config) :
    ((oauth2flow.AuthCodeFlow lib w settings).2.filter Event.isSend).length ≤ 1 := by
  have hinv := fun url => Serve_invariant
    (oauth2flow.callbackHandler lib w settings (str "http://localhost:5000")
      (w.randomString 10))
    (fun s => (s.l = true → (s.trace.filter Event.isSend).length = 0) ∧
      (s.trace.filter Event.isSend).length ≤ 1)
    (fun s r hc hs => by
      have h0 := hs.1 hc.2
      by_cases hst : Values.Get r.Query (str "state") = w.randomString 10
      · cases hu : lib.Parse settings.TokenURL with
        | none =>
          rw [flow_handler_bad_token_url lib w settings _ _ s r hst hu]
          simp [Server.Panic, List.filter_append, Event.isSend, h0]
        | some tu =>
          rw [flow_handler_match lib w settings _ _ s r tu hst hu]
          split
          · simp [Server.Panic, Server.call, List.filter_append, Event.isSend, h0]
          · simp [Server.Close, Server.Send, Server.emit, Server.call, List.filter_append,
              Event.isSend, h0]
      · rw [flow_handler_mismatch lib w settings _ _ s r hst]
        simp [Server.Fatal, List.filter_append, Event.isSend, h0])
    (Server.start [.openBrowser url]) w.requests
    (by simp [Server.start, Event.isSend])
  cases hurl : oauth2flow.createAuthorizationURL lib settings (str "code")
      (str "http://localhost:5000") (w.randomString 10) with
  | none => simp [oauth2flow.AuthCodeFlow, hurl, Event.isSend]
  | some url =>
    cases hl : w.listen with
    | some err => simp [oauth2flow.AuthCodeFlow, hurl, hl, Event.isSend]
    | none =>
      rw [AuthCodeFlow_serving lib w settings url hurl hl]
      exact (hinv url).2

/-- oauth2webflow: at most one exchange is made and at most one token is sent. -/
theorem web_at_most_one_exchange (w : World) :
    ((oauth2webflow.BrowserAuthCodeFlow w).2.filter Event.isTokenCall).length ≤ 1 ∧
      ((oauth2webflow.BrowserAuthCodeFlow w).2.filter Event.isSend).length ≤ 1 := by
  have hinv := fun url => Serve_invariant
    (oauth2webflow.callbackHandler w (w.randomString 10))
    (fun s => ((s.running = true ∧ s.l = true) →
        (s.trace.filter Event.isTokenCall).length = 0 ∧
        (s.trace.filter Event.isSend).length = 0) ∧
      (s.trace.filter Event.isTokenCall).length ≤ 1 ∧
      (s.trace.filter Event.isSend).length ≤ 1)
    (fun s r hc hs => by
      have h0 := hs.1 hc
      by_cases hp : r.Path = str "/"
      · by_cases hst : Values.Get r.Query (str "state") = w.randomString 10
        · rw [web_handler_match w _ s r hp hst]
          split
          · simp [Server.Fatal, Server.call, Server.emit, List.filter_append, Event.isSend,
              Event.isTokenCall, h0]
          · simp [Server.Close, Server.Send, Server.call, Server.emit, List.filter_append,
              Event.isSend, Event.isTokenCall, h0]
        · rw [web_handler_mismatch w _ s r hp hst]
          simp [Server.Fatal, Server.emit, List.filter_append, Event.isSend,
            Event.isTokenCall, h0]
      · rw [web_handler_other_path w _ s r hp]
        exact hs)
    (Server.start [.openBrowser url]) w.requests
    (by simp [Server.start, Event.isSend, Event.isTokenCall])
  have htrace : (oauth2webflow.BrowserAuthCodeFlow w).2
        = [.openBrowser (w.AuthCodeURL (w.randomString 10))] ∨
      (oauth2webflow.BrowserAuthCodeFlow w).2
        = (Serve (oauth2webflow.callbackHandler w (w.randomString 10))
            (Server.start [.openBrowser (w.AuthCodeURL (w.randomString 10))])
            w.requests).trace := by
    cases hb : w.openURLBrowser (w.AuthCodeURL (w.randomString 10)) with
    | some err => simp [oauth2webflow.BrowserAuthCodeFlow, hb]
    | none =>
      cases hl : w.listen with
      | some err => simp [oauth2webflow.BrowserAuthCodeFlow, hb, hl]
      | none =>
        right
        simp only [oauth2webflow.BrowserAuthCodeFlow, hb, hl]
        split_ifs
        all_goals first | rfl | (split <;> rfl)
  rcases htrace with h | h
  · rw [h]; simp [Event.isSend, Event.isTokenCall]
  · rw [h]; exact (hinv (w.AuthCodeURL (w.randomString 10))).2

/-- oauth2webflow: every request on `/` gets the page, whatever its state. -/
theorem web_handler_writes_page (w : World) (secretState : GoString) (s : Server Token)
    (r : Request) (hp : r.Path = str "/") :
    ∃ tail, (oauth2webflow.callbackHandler w secretState s r).trace
      = s.trace ++ .write closePage :: tail := by
  by_cases hs : Values.Get r.Query (str "state") = secretState
  · rw [web_handler_match w secretState s r hp hs]
    cases w.Exchange s.calls (Values.Get r.Query (str "code")) with
    | error err =>
      exact ⟨[.exchange (Values.Get r.Query (str "code")), .fatal (.exchange err)],
        by simp [Server.Fatal, Server.call, Server.emit]⟩
    | ok token =>
      exact ⟨[.exchange (Values.Get r.Query (str "code")), .send token, .close],
        by simp [Server.Close, Server.Send, Server.call, Server.emit]⟩
  · rw [web_handler_mismatch w secretState s r hp hs]
    exact ⟨[.fatal .stateInvalid], by simp [Server.Fatal, Server.emit]⟩

/-- The page at the redirect with a wrong state. -/
theorem web_handler_writes_page_witness :
    exWrongState.Path = str "/" ∧
      ∃ tail, (oauth2webflow.callbackHandler exWorld (str "abcdefghij") (Server.start [])
          exWrongState).trace = [] ++ .write closePage :: tail :=
  ⟨by decide,
    web_handler_writes_page exWorld (str "abcdefghij") (Server.start []) exWrongState
      (by decide)⟩

/-- oauth2webflow: a request whose path is not `/` leaves the state of the flow
as it is, whatever its code and state parameters: nothing is validated,
exchanged, sent or closed. -/
theorem web_other_path_changes_nothing (w : World) (secretState : GoString)
    (s : Server Token) (r : Request) (h : r.Path ≠ str "/") :
    oauth2webflow.callbackHandler w secretState s r = s :=
  web_handler_other_path w secretState s r h

/-- The request for `/other` with the code and the expected state. -/
theorem web_other_path_changes_nothing_witness :
    exOtherPath.Path ≠ str "/" ∧
      (oauth2webflow.callbackHandler exWorld (str "abcdefghij") (Server.start [])
        exOtherPath).trace = (Server.start []).trace :=
  ⟨by decide,
    congrArg Server.trace
      (web_other_path_changes_nothing exWorld (str "abcdefghij") (Server.start []) exOtherPath
        (by decide))⟩

/-! ## Test vectors -/

/-- The test vectors of RFC 4648 §10 for base64. -/
theorem EncodeToString_rfc4648 :
    EncodeToString (str "") = str "" ∧
      EncodeToString (str "f") = str "Zg==" ∧
      EncodeToString (str "fo") = str "Zm8=" ∧
      EncodeToString (str "foo") = str "Zm9v" ∧
      EncodeToString (str "foob") = str "Zm9vYg==" ∧
      EncodeToString (str "fooba") = str "Zm9vYmE=" ∧
      EncodeToString (str "foobar") = str "Zm9vYmFy" := by
  decide

/-- Query escaping and parsing on examples: the space becomes `+`, reserved and
non-ASCII bytes `%XX`; a pair with a bad escape or a `;` is dropped. -/
theorem query_examples :
    QueryEscape (str "a b&c=d/e~f-é") = str "a+b%26c%3Dd%2Fe~f-%C3%A9" ∧
      QueryUnescape (str "a+b%26c%3Dd%2Fe~f-%C3%A9") = some (str "a b&c=d/e~f-é") ∧
      QueryUnescape (str "100%") = none ∧
      Values.Encode (ParseQuery (str "x=1&y=2&x=3&bad=%zz&a;b=1&&k")) = str "k=&x=1&x=3&y=2" := by
  decide

set_option maxRecDepth 100000 in
/-- The URL of the example, byte for byte. -/
theorem createAuthorizationURL_example :
    oauth2flow.createAuthorizationURL stdLib exSettings (str "code")
        (str "http://localhost:5000") (str "abcdefghij")
      = some (str ("https://example.com/auth?client_id=id&foo=bar&foo=baz" ++
          "&redirect_uri=http%3A%2F%2Flocalhost%3A5000&response_type=code&scope=read" ++
          "&state=abcdefghij")) := by
  decide

end OAuth2Flow
